import Mathlib

/-!
Lua.go: opcode table and call protocol.

A shallow embedding of `src/vm/opcodes.go` (the opcode constants and the
descriptor table) and of `src/state/api_call.go` (`Load`, `Call`,
`callLuaClosure`, `runLuaClosure`, `callGoClosure`), with the properties of
the specification stated and proved over it.
-/

namespace LuaGo

/-! ## vm/opcodes.go -/

namespace vm

/-- OpMode constants (`IABC = iota ...`). -/
def IABC : Nat := 0
def IABx : Nat := 1
def IAsBx : Nat := 2
def IAx : Nat := 3

/-- OpName constants, in the order of the `const (... = iota` block. -/
def OpMOVE : Nat := 0
def OpLOADK : Nat := 1
def OpLOADKX : Nat := 2
def OpLOADBOOL : Nat := 3
def OpLOADNIL : Nat := 4
def OpGETUPVAL : Nat := 5
def OpGETTABUP : Nat := 6
def OpGETTABLE : Nat := 7
def OpSETTABUP : Nat := 8
def OpSETUPVAL : Nat := 9
def OpSETTABLE : Nat := 10
def OpNEWTABLE : Nat := 11
def OpSELF : Nat := 12
def OpADD : Nat := 13
def OpSUB : Nat := 14
def OpMUL : Nat := 15
def OpMOD : Nat := 16
def OpPOW : Nat := 17
def OpDIV : Nat := 18
def OpIDIV : Nat := 19
def OpBAND : Nat := 20
def OpBOR : Nat := 21
def OpBXOR : Nat := 22
def OpSHL : Nat := 23
def OpSHR : Nat := 24
def OpUNM : Nat := 25
def OpBNOT : Nat := 26
def OpNOT : Nat := 27
def OpLEN : Nat := 28
def OpCONCAT : Nat := 29
def OpJMP : Nat := 30
def OpEQ : Nat := 31
def OpLT : Nat := 32
def OpLE : Nat := 33
def OpTEST : Nat := 34
def OpTESTSET : Nat := 35
def OpCALL : Nat := 36
def OpTAILCALL : Nat := 37
def OpRETURN : Nat := 38
def OpFORLOOP : Nat := 39
def OpFORPREP : Nat := 40
def OpTFORLOOP : Nat := 41
def OpTFORCALL : Nat := 42
def OpSETLIST : Nat := 43
def OpCLOSURE : Nat := 44
def OpVARARG : Nat := 45
def OpEXTRAARG : Nat := 46

/-- The identifiers of the OpName const block paired with their values: the
constant `OpX` appears as `("X", OpX)`. -/
def opNameConsts : List (String × Nat) :=
  [ ("MOVE", OpMOVE), ("LOADK", OpLOADK), ("LOADKX", OpLOADKX), ("LOADBOOL", OpLOADBOOL),
    ("LOADNIL", OpLOADNIL), ("GETUPVAL", OpGETUPVAL), ("GETTABUP", OpGETTABUP),
    ("GETTABLE", OpGETTABLE), ("SETTABUP", OpSETTABUP), ("SETUPVAL", OpSETUPVAL),
    ("SETTABLE", OpSETTABLE), ("NEWTABLE", OpNEWTABLE), ("SELF", OpSELF), ("ADD", OpADD),
    ("SUB", OpSUB), ("MUL", OpMUL), ("MOD", OpMOD), ("POW", OpPOW), ("DIV", OpDIV),
    ("IDIV", OpIDIV), ("BAND", OpBAND), ("BOR", OpBOR), ("BXOR", OpBXOR), ("SHL", OpSHL),
    ("SHR", OpSHR), ("UNM", OpUNM), ("BNOT", OpBNOT), ("NOT", OpNOT), ("LEN", OpLEN),
    ("CONCAT", OpCONCAT), ("JMP", OpJMP), ("EQ", OpEQ), ("LT", OpLT), ("LE", OpLE),
    ("TEST", OpTEST), ("TESTSET", OpTESTSET), ("CALL", OpCALL), ("TAILCALL", OpTAILCALL),
    ("RETURN", OpRETURN), ("FORLOOP", OpFORLOOP), ("FORPREP", OpFORPREP),
    ("TFORLOOP", OpTFORLOOP), ("TFORCALL", OpTFORCALL), ("SETLIST", OpSETLIST),
    ("CLOSURE", OpCLOSURE), ("VARARG", OpVARARG), ("EXTRAARG", OpEXTRAARG) ]

/-- OpBMode / OpCMode constants. -/
def OpArgN : Nat := 0
def OpArgU : Nat := 1
def OpArgR : Nat := 2
def OpArgK : Nat := 3

/-- The `opcode` descriptor struct. The `byte` fields are naturals; `action`
is a Go function value, represented by the identifier of the handler the
table names, `none` standing for `nil`. -/
structure opcode where
  testFlag : Nat
  setAFlag : Nat
  argBMode : Nat
  argCMode : Nat
  opMode : Nat
  name : String
  action : Option String
  deriving DecidableEq, Repr

/-- The table `var opcodes = []opcode{...}`, entry by entry. -/
def opcodes : List opcode :=
  [ ⟨0, 1, OpArgR, OpArgN, IABC, "MOVE    ", some "move"⟩,
    ⟨0, 1, OpArgK, OpArgN, IABx, "LOADK   ", some "loadk"⟩,
    ⟨0, 1, OpArgN, OpArgN, IABx, "LOADKX  ", some "loadkx"⟩,
    ⟨0, 1, OpArgU, OpArgU, IABC, "LOADBOOL", some "loadBool"⟩,
    ⟨0, 1, OpArgU, OpArgN, IABC, "LOADNIL ", some "loadNil"⟩,
    ⟨0, 1, OpArgU, OpArgN, IABC, "GETUPVAL", some "getUpval"⟩,
    ⟨0, 1, OpArgU, OpArgK, IABC, "GETTABUP", some "getTabUp"⟩,
    ⟨0, 1, OpArgR, OpArgK, IABC, "GETTABLE", some "getTable"⟩,
    ⟨0, 0, OpArgK, OpArgK, IABC, "SETTABUP", some "setTabUp"⟩,
    ⟨0, 0, OpArgU, OpArgN, IABC, "SETUPVAL", some "setUpval"⟩,
    ⟨0, 0, OpArgK, OpArgK, IABC, "SETTABLE", some "setTable"⟩,
    ⟨0, 1, OpArgU, OpArgU, IABC, "NEWTABLE", some "newTable"⟩,
    ⟨0, 1, OpArgR, OpArgK, IABC, "SELF    ", some "luaSelf"⟩,
    ⟨0, 1, OpArgK, OpArgK, IABC, "ADD     ", some "add"⟩,
    ⟨0, 1, OpArgK, OpArgK, IABC, "SUB     ", some "sub"⟩,
    ⟨0, 1, OpArgK, OpArgK, IABC, "MUL     ", some "mul"⟩,
    ⟨0, 1, OpArgK, OpArgK, IABC, "MOD     ", some "mod"⟩,
    ⟨0, 1, OpArgK, OpArgK, IABC, "POW     ", some "pow"⟩,
    ⟨0, 1, OpArgK, OpArgK, IABC, "DIV     ", some "div"⟩,
    ⟨0, 1, OpArgK, OpArgK, IABC, "IDIV    ", some "idiv"⟩,
    ⟨0, 1, OpArgK, OpArgK, IABC, "BAND    ", some "bAnd"⟩,
    ⟨0, 1, OpArgK, OpArgK, IABC, "BOR     ", some "bOr"⟩,
    ⟨0, 1, OpArgK, OpArgK, IABC, "BXOR    ", some "bXor"⟩,
    ⟨0, 1, OpArgK, OpArgK, IABC, "SHL     ", some "shl"⟩,
    ⟨0, 1, OpArgK, OpArgK, IABC, "SHR     ", some "shr"⟩,
    ⟨0, 1, OpArgR, OpArgN, IABC, "UNM     ", some "unm"⟩,
    ⟨0, 1, OpArgR, OpArgN, IABC, "BNOT    ", some "bNot"⟩,
    ⟨0, 1, OpArgR, OpArgN, IABC, "NOT     ", some "luaNot"⟩,
    ⟨0, 1, OpArgR, OpArgN, IABC, "LEN     ", some "luaLen"⟩,
    ⟨0, 1, OpArgR, OpArgR, IABC, "CONCAT  ", some "luaConcat"⟩,
    ⟨0, 0, OpArgR, OpArgN, IAsBx, "JMP     ", some "jmp"⟩,
    ⟨1, 0, OpArgK, OpArgK, IABC, "EQ      ", some "luaEq"⟩,
    ⟨1, 0, OpArgK, OpArgK, IABC, "LT      ", some "luaLt"⟩,
    ⟨1, 0, OpArgK, OpArgK, IABC, "LE      ", some "luaLe"⟩,
    ⟨1, 0, OpArgN, OpArgU, IABC, "TEST    ", some "luaTest"⟩,
    ⟨1, 1, OpArgR, OpArgU, IABC, "TESTSET ", some "luaTestset"⟩,
    ⟨0, 1, OpArgU, OpArgU, IABC, "CALL    ", some "call"⟩,
    ⟨0, 1, OpArgU, OpArgU, IABC, "TAILCALL", some "tailcall"⟩,
    ⟨0, 0, OpArgU, OpArgN, IABC, "RETURN  ", some "luaReturn"⟩,
    ⟨0, 1, OpArgR, OpArgN, IAsBx, "FORLOOP ", some "luaForLoop"⟩,
    ⟨0, 1, OpArgR, OpArgN, IAsBx, "FORPREP ", some "luaForPrep"⟩,
    ⟨0, 0, OpArgN, OpArgU, IABC, "TFORCALL", some "luaTForCall"⟩,
    ⟨0, 1, OpArgR, OpArgN, IAsBx, "TFORLOOP", some "luaTForLoop"⟩,
    ⟨0, 0, OpArgU, OpArgU, IABC, "SETLIST ", some "setList"⟩,
    ⟨0, 1, OpArgU, OpArgN, IABx, "CLOSURE ", some "closure"⟩,
    ⟨0, 1, OpArgU, OpArgN, IABC, "VARARG  ", some "vararg"⟩,
    ⟨0, 0, OpArgU, OpArgU, IAx, "EXTRAARG", none⟩ ]

/-- An instruction is a 32-bit word (`type Instruction uint32`). -/
abbrev Instruction := Nat

/-- Modelled from the spec: `Instruction.Opcode`, whose file is not among the
sources; section 4.1 gives the opcode as the 6 low bits of the word. -/
def Opcode (i : Instruction) : Nat := i % 64

/-- Go slice indexing `opcodes[k]`: `none` stands for the run-time panic
"index out of range". -/
def opcodeAt (k : Nat) : Option opcode := opcodes.get? k

/-- `func (i Instruction) OpName() string`. -/
def OpName (i : Instruction) : Option String := (opcodeAt (Opcode i)).map (·.name)

/-- `func (i Instruction) OpMode() byte`. -/
def OpMode (i : Instruction) : Option Nat := (opcodeAt (Opcode i)).map (·.opMode)

/-- `func (i Instruction) BMode() byte`. -/
def BMode (i : Instruction) : Option Nat := (opcodeAt (Opcode i)).map (·.argBMode)

/-- `func (i Instruction) CMode() byte`. -/
def CMode (i : Instruction) : Option Nat := (opcodeAt (Opcode i)).map (·.argCMode)

/-- A descriptor name without its trailing padding spaces. -/
def trimName (s : String) : String :=
  String.mk (s.data.reverse.dropWhile (fun c => c == ' ')).reverse

/-- The constants of the OpName block whose table entry does not carry their
own name. -/
def misnamed : List (String × Nat) :=
  opNameConsts.filter (fun p => (opcodeAt p.2).map (fun d => trimName d.name) != some p.1)

end vm


/-! ## state/api_call.go -/

namespace state

open vm

/-- Modelled from the spec: the function prototype produced by the chunk
loader (package `binchunk` is not among the sources); section 3 lists its
content, of which the fields read by `api_call.go` are kept. The three
`byte` fields are naturals. -/
structure Prototype where
  Source : String
  LineDefined : Nat
  LastLineDefined : Nat
  NumParams : Nat
  IsVararg : Nat
  MaxStackSize : Nat
  Code : List Nat
  deriving DecidableEq, Repr

/-- Modelled from the spec: the closure value `luaClosure` (its declaration is
not among the sources): an interpreted closure carries a prototype, a native
one a host callback. A Go function value cannot be stored in a first-order
value, so `goFunc` holds the handle of the callback, resolved by `Host.goFunc`;
`none` stands for `nil` in both fields. -/
structure luaClosure where
  proto : Option Prototype
  goFunc : Option Nat
  deriving DecidableEq, Repr

/-- Modelled from the spec: the dynamically typed value `luaValue` (its
declaration is not among the sources), with the variants needed to tell a
closure from any other value. -/
inductive luaValue where
  | nil
  | boolean (b : Bool)
  | integer (n : Int)
  | str (s : String)
  | closure (c : luaClosure)
  deriving DecidableEq, Repr

/-- Modelled from the spec: the activation frame `luaStack` (lua_stack.go is
not among the sources), section 3: a register array of fixed capacity with a
top-of-stack marker, the executing closure, the captured varargs and the
program counter. The back-reference `prev` is the position in
`LuaState.frames`. -/
structure luaStack where
  slots : List luaValue
  top : Nat
  closure : Option luaClosure
  varargs : List luaValue
  pc : Nat
  deriving DecidableEq, Repr

/-- Modelled from the spec: the interpreter state (its declaration is not
among the sources), section 3: the call stack is an ordered sequence of
frames, strictly LIFO, whose first element is the current frame `s.stack`;
the empty sequence is `s.stack == nil`. -/
structure LuaState where
  frames : List luaStack
  deriving DecidableEq, Repr

/-- Outcome of a piece of Go code run on a state of type `σ`: normal return
with a value, a panic with its message (the state is the one reached when the
panic was raised), or an execution loop still running when its fuel ran out. -/
inductive Res (σ α : Type) where
  | ok (a : α) (s : σ)
  | panic (msg : String) (s : σ)
  | running
  deriving DecidableEq, Repr

/-- A method of `*LuaState`. -/
def M (α : Type) : Type := LuaState → Res LuaState α

instance : Monad M where
  pure a := fun s => .ok a s
  bind x f := fun s =>
    match x s with
    | .ok a s1 => f a s1
    | .panic m s1 => .panic m s1
    | .running => .running

/-- Go `panic(msg)`. -/
def M.raise {α : Type} (msg : String) : M α := fun s => .panic msg s

/-- Message of the run-time panic of a nil dereference. -/
def nilDeref : String := "invalid memory address or nil pointer dereference"

/-- Message of the run-time panic of an index or slice bound out of range. -/
def outOfRange : String := "index out of range"

/-- Message of the run-time panic of `make` with a negative length. -/
def makeslice : String := "makeslice: len out of range"

namespace luaStack

/-- Modelled from the spec: `newLuaStack` (lua_stack.go is not among the
sources): a frame of `size` nil slots, nothing pushed. -/
def new (size : Nat) : luaStack :=
  { slots := List.replicate size .nil, top := 0, closure := none, varargs := [], pc := 0 }

/-- Modelled from the spec: `luaStack.check` (lua_stack.go is not among the
sources): the operand area is growable (section 3); `check n` appends nil
slots until `n` slots are free above the top. -/
def check (st : luaStack) (n : Nat) : luaStack :=
  { st with slots := st.slots ++
      List.replicate ((n : Int) - ((st.slots.length : Int) - (st.top : Int))).toNat .nil }

/-- Modelled from the spec: `luaStack.push` (lua_stack.go is not among the
sources): a push beyond the capacity raises StackOverflow (section 7 b). -/
def push (st : luaStack) (val : luaValue) : Res luaStack Unit :=
  if st.top = st.slots.length then .panic "stack overflow!" st
  else if st.slots.length < st.top then .panic outOfRange st
  else .ok () { st with slots := st.slots.set st.top val, top := st.top + 1 }

/-- Modelled from the spec: `luaStack.pop` (lua_stack.go is not among the
sources): a pop from an empty stack raises StackUnderflow (section 7 b); the
vacated slot is reset to nil. -/
def pop (st : luaStack) : Res luaStack luaValue :=
  if st.top < 1 then .panic "stack underflow!" st
  else if st.slots.length ≤ st.top - 1 then .panic outOfRange { st with top := st.top - 1 }
  else .ok (st.slots.getD (st.top - 1) .nil)
    { st with slots := st.slots.set (st.top - 1) .nil, top := st.top - 1 }

/-- The loop of `popN`: `k` more pops, each value going in front of the ones
popped before it (`vals[i] = pop()` for `i` from `n-1` down to `0`). -/
def popNLoop : Nat → luaStack → List luaValue → Res luaStack (List luaValue)
  | 0, st, acc => .ok acc st
  | k + 1, st, acc =>
    match st.pop with
    | .ok v st1 => popNLoop k st1 (v :: acc)
    | .panic m st1 => .panic m st1
    | .running => .running

/-- Modelled from the spec: `luaStack.popN` (lua_stack.go is not among the
sources): the top `n` values, removed, in stack order (bottom first). -/
def popN (st : luaStack) (n : Int) : Res luaStack (List luaValue) :=
  if n < 0 then .panic makeslice st else popNLoop n.toNat st []

/-- The loop of `pushN`: iteration `i` pushes `vals[i]` when `i < len(vals)`
and nil otherwise; `k` iterations remain. -/
def pushNLoop (vals : List luaValue) : Nat → Nat → luaStack → Res luaStack Unit
  | _, 0, st => .ok () st
  | i, k + 1, st =>
    match st.push (if i < vals.length then vals.getD i .nil else .nil) with
    | .ok _ st1 => pushNLoop vals (i + 1) k st1
    | .panic m st1 => .panic m st1
    | .running => .running

/-- Modelled from the spec: `luaStack.pushN` (lua_stack.go is not among the
sources), sections 4.4 and 4.5: exactly `n` values are pushed, the first
`min n (len vals)` of `vals` and then nils; a negative `n` means all of
`vals`. -/
def pushN (st : luaStack) (vals : List luaValue) (n : Int) : Res luaStack Unit :=
  pushNLoop vals 0 (if n < 0 then vals.length else n.toNat) st

/-- Modelled from the spec: `luaStack.absIndex` (lua_stack.go is not among the
sources): a negative index is relative to the top, `-1` being the top. -/
def absIndex (st : luaStack) (idx : Int) : Int :=
  if idx ≥ 0 then idx else idx + (st.top : Int) + 1

/-- Modelled from the spec: `luaStack.get` (lua_stack.go is not among the
sources), section 4.4: the value of the slot at the given index, nil when the
index designates no slot of the stack; `none` is the run-time panic of
indexing beyond the slot array. -/
def get (st : luaStack) (idx : Int) : Option luaValue :=
  let absIdx := st.absIndex idx
  if 0 < absIdx ∧ absIdx ≤ (st.top : Int) then st.slots.get? (absIdx.toNat - 1)
  else some .nil

end luaStack

/-- What `api_call.go` uses and the sources do not contain: the constants
`api.LuaMinStack` and `api.LuaMaxStack`, the chunk loader `binchunk.Undump`,
`LuaState.Fetch`, `Instruction.Execute` with the opcode handlers behind it,
and the host callbacks behind the `goFunc` handles. The properties below hold
for every such environment. -/
structure Host where
  LuaMinStack : Nat
  LuaMaxStack : Nat
  Undump : List Nat → Res Unit Prototype
  Fetch : M Nat
  Execute : Instruction → M Unit
  goFunc : Nat → M Int

/-- Run a method of the current frame `s.stack` in place. -/
def onStack {α : Type} (f : luaStack → Res luaStack α) : M α := fun s =>
  match s.frames with
  | [] => .panic nilDeref s
  | st :: rest =>
    match f st with
    | .ok a st1 => .ok a ⟨st1 :: rest⟩
    | .panic m st1 => .panic m ⟨st1 :: rest⟩
    | .running => .running

/-- Modelled from the spec: `pushLuaStack` (its file is not among the
sources): the frame becomes the current one, on top of the call stack. -/
def pushLuaStack (st : luaStack) : M Unit := fun s => .ok () ⟨st :: s.frames⟩

/-- Modelled from the spec: `popLuaStack` (its file is not among the sources):
the current frame leaves the call stack and the one below is current again.
The frame removed is returned: it is the one the local `newStack` of the two
call paths designates when the callee gives control back with its own frame
current. -/
def popLuaStack : M luaStack := fun s =>
  match s.frames with
  | [] => .panic nilDeref s
  | st :: rest => .ok st ⟨rest⟩

/-- Modelled from the spec: `newLuaClosure` (its file is not among the
sources): the interpreted closure of a prototype. -/
def newLuaClosure (proto : Prototype) : luaClosure := { proto := some proto, goFunc := none }

/-- `func (s *LuaState) Load(chunk []byte, chunkName, mode string) int`. -/
def Load (h : Host) (chunk : List Nat) (chunkName mode : String) : M Int := fun s =>
  match h.Undump chunk with
  | .ok proto _ =>
    let c := newLuaClosure proto
    match onStack (fun st => st.push (.closure c)) s with
    | .ok _ s1 => .ok 0 s1
    | .panic m s1 => .panic m s1
    | .running => .running
  | .panic m _ => .panic m s
  | .running => .running

/-- Lines 41-54 of `callLuaClosure`: the new frame is built, the callable and
its arguments are popped from the caller, the fixed parameters are bound, the
top marker and the varargs are set, and the frame is pushed. The state
returned is the one in which `runLuaClosure` starts. -/
def callLuaClosurePrepare (h : Host) (nArgs : Int) (c : luaClosure) : M Unit := fun s =>
  match c.proto with
  | none => .panic nilDeref s
  | some proto =>
    let nRegs := proto.MaxStackSize
    let nParams := proto.NumParams
    let isVararg := proto.IsVararg == 1
    let newStack := { luaStack.new (nRegs + h.LuaMinStack) with closure := some c }
    match onStack (fun st => st.popN (nArgs + 1)) s with
    | .panic m s1 => .panic m s1
    | .running => .running
    | .ok funcAndArgs s1 =>
      if funcAndArgs.length < 1 then .panic outOfRange s1
      else
        match newStack.pushN (funcAndArgs.drop 1) nParams with
        | .panic m _ => .panic m s1
        | .running => .running
        | .ok _ newStack =>
          let newStack := { newStack with top := nRegs }
          let newStack :=
            if nArgs > nParams ∧ isVararg then
              { newStack with varargs := funcAndArgs.drop (nParams + 1) }
            else newStack
          pushLuaStack newStack s1

/-- `func (s *LuaState) runLuaClosure()`: the loop runs until the instruction
just executed is a RETURN. The value returned is the list of the
instructions fetched and executed, in order; it records the loop and is not
part of the Go state. `fuel` bounds the number of iterations. -/
def runLuaClosure (h : Host) : Nat → M (List Instruction)
  | 0 => fun _ => .running
  | fuel + 1 => do
    let inst ← h.Fetch
    h.Execute inst
    if Opcode inst = OpRETURN then pure [inst]
    else do
      let rest ← runLuaClosure h fuel
      pure (inst :: rest)

/-- Lines 58-62 and 87-91: the results are copied to the caller's stack. -/
def pushResults (results : List luaValue) (nResults : Int) : M Unit := do
  onStack (fun st => .ok () (st.check results.length))
  onStack (fun st => st.pushN results nResults)

/-- `func (s *LuaState) callLuaClosure(nArgs, nResults int, c *luaClosure)`:
the preparation (lines 41-54), the loop, `popLuaStack` and the copy of the
results. `nRegs` is `c.proto.MaxStackSize` as in the preparation, which has
read `c.proto` and has failed already when it is nil. -/
def callLuaClosure (h : Host) (fuel : Nat) (nArgs nResults : Int) (c : luaClosure) :
    M Unit := do
  callLuaClosurePrepare h nArgs c
  let _ ← runLuaClosure h fuel
  let newStack ← popLuaStack
  if nResults ≠ 0 then
    let nRegs : Int := ((c.proto.map (·.MaxStackSize)).getD 0 : Nat)
    match newStack.popN ((newStack.top : Int) - nRegs) with
    | .ok results _ => pushResults results nResults
    | .panic m _ => M.raise m
    | .running => fun _ => .running
  else pure ()

/-- Lines 77-83 of `callGoClosure`: the new frame receives the arguments, the
callable is popped from the caller, and the frame is pushed. The state
returned is the one the host callback is invoked on. -/
def callGoClosurePrepare (h : Host) (nArgs : Int) (c : luaClosure) : M Unit := fun s =>
  if nArgs + (h.LuaMaxStack : Int) < 0 then .panic makeslice s
  else
    let newStack :=
      { luaStack.new (nArgs + (h.LuaMaxStack : Int)).toNat with closure := some c }
    match onStack (fun st => st.popN nArgs) s with
    | .panic m s1 => .panic m s1
    | .running => .running
    | .ok args s1 =>
      match newStack.pushN args nArgs with
      | .panic m _ => .panic m s1
      | .running => .running
      | .ok _ newStack =>
        match onStack (fun st => st.pop) s1 with
        | .panic m s2 => .panic m s2
        | .running => .running
        | .ok _ s2 => pushLuaStack newStack s2

/-- `func (s *LuaState) callGoClosure(nArgs, nResults int, c *luaClosure)`:
the preparation (lines 77-83), the host callback, `popLuaStack` and the copy
of the results. -/
def callGoClosure (h : Host) (nArgs nResults : Int) (c : luaClosure) : M Unit := do
  callGoClosurePrepare h nArgs c
  let r ← (match c.goFunc with
    | some f => h.goFunc f
    | none => M.raise nilDeref)
  let newStack ← popLuaStack
  if nResults ≠ 0 then
    match newStack.popN r with
    | .ok results _ => pushResults results nResults
    | .panic m _ => M.raise m
    | .running => fun _ => .running
  else pure ()

/-- `func (s *LuaState) Call(nArgs, nResults int)`. The debug `fmt.Printf` of
the interpreted branch writes to standard output only and is left out. -/
def Call (h : Host) (fuel : Nat) (nArgs nResults : Int) : M Unit := fun s =>
  match s.frames with
  | [] => .panic nilDeref s
  | st :: _ =>
    match st.get (-(nArgs + 1)) with
    | none => .panic outOfRange s
    | some (.closure c) =>
      if c.proto ≠ none then callLuaClosure h fuel nArgs nResults c s
      else if c.goFunc ≠ none then callGoClosure h nArgs nResults c s
      else .ok () s
    | some _ => .panic "no function!" s

end state


namespace state

open vm

/-- The values pushed by `pushN vals n`: iteration `j` contributes `vals[j]`,
or nil once `vals` is exhausted. -/
def padTo (vals : List luaValue) (i k : Nat) : List luaValue :=
  (List.range' i k).map (fun j => if j < vals.length then vals.getD j .nil else .nil)

/-- The body of the loop of `runLuaClosure` repeated `n` times without the
test that ends it: `n` instructions are fetched and executed one after the
other, and listed. -/
def fetchExecute (h : Host) : Nat → M (List Instruction)
  | 0 => pure []
  | n + 1 => do
    let inst ← h.Fetch
    h.Execute inst
    let rest ← fetchExecute h n
    pure (inst :: rest)

/-- Two values of a frame that differ by the stack only: the same executing
closure, varargs and program counter. Frames are identified by their place in
`LuaState.frames`; this is what a frame keeps when values are pushed on it or
popped from it. -/
def luaStack.sameFrame (a b : luaStack) : Prop :=
  a.closure = b.closure ∧ a.varargs = b.varargs ∧ a.pc = b.pc

/-- The number of slots `check` is asked to guarantee in lines 60 and 89:
`len(results)`. -/
def requestedSlots (results : List luaValue) : Nat := results.length

/-- The number of values `pushN(results, nResults)` pushes in lines 61 and
90: `nResults`, or `len(results)` when `nResults` is negative. -/
def pushedValues (results : List luaValue) (nResults : Int) : Nat :=
  if nResults < 0 then results.length else nResults.toNat

/-- The current frame of the state an outcome carries. -/
def Res.frame? {α : Type} : Res LuaState α → Option luaStack
  | .ok _ s => s.frames.head?
  | .panic _ s => s.frames.head?
  | .running => none

/-- The depth of the call stack of the state an outcome carries. -/
def Res.depth? {α : Type} : Res LuaState α → Option Nat
  | .ok _ s => some s.frames.length
  | .panic _ s => some s.frames.length
  | .running => none

/-- The message of a panic. -/
def Res.panicMsg? {σ α : Type} : Res σ α → Option String
  | .panic m _ => some m
  | _ => none

/-- The values on the stack of a frame, bottom first. -/
def luaStack.values (st : luaStack) : List luaValue := st.slots.take st.top

end state

/-! ## A small environment

The theorems hold for every `Host`; the following one instantiates them. -/

namespace state

open vm

/-- Modelled from the spec: `LuaState.Fetch` (its file is not among the
sources), section 4.6: the instruction at the program counter of the current
frame, the counter being incremented before the instruction is executed. -/
def Fetch : M Nat := fun s =>
  match s.frames with
  | [] => .panic nilDeref s
  | st :: rest =>
    match st.closure.bind (·.proto) with
    | none => .panic nilDeref s
    | some p =>
      match p.Code.get? st.pc with
      | none => .panic outOfRange s
      | some i => .ok i ⟨{ st with pc := st.pc + 1 } :: rest⟩

/-- A stand-in for `Instruction.Execute`: RETURN pushes the integers
`1, ..., k` above the registers, `k` being the word without its opcode bits;
EXTRAARG, which has no handler, panics; every other instruction does
nothing. -/
def demoExecute (i : Instruction) : M Unit :=
  if Opcode i = OpRETURN then
    onStack (fun st => st.pushN ((List.range (i / 64)).map (fun j => .integer (j + 1))) (-1))
  else if Opcode i = OpEXTRAARG then M.raise "EXTRAARG"
  else pure ()

/-- Stand-ins for host callbacks: handle 0 returns no value, handle 1 pushes
`7` and returns it, handle 2 returns all of its arguments, any other handle
fails. -/
def demoGoFunc (f : Nat) : M Int :=
  if f = 0 then pure 0
  else if f = 1 then do
    onStack (fun st => st.push (.integer 7))
    pure 1
  else if f = 2 then fun s =>
    match s.frames with
    | [] => .panic nilDeref s
    | st :: _ => .ok st.top s
  else M.raise "host error"

/-- An environment with a safety margin of 20 slots. -/
def demoHost : Host :=
  { LuaMinStack := 20
    LuaMaxStack := 30
    Undump := fun chunk => .ok ⟨"chunk", 0, 0, 0, 1, 2, chunk⟩ ()
    Fetch := Fetch
    Execute := demoExecute
    goFunc := demoGoFunc }

/-- The word of a RETURN instruction whose remaining bits are `k`. -/
def demoReturn (k : Nat) : Instruction := k * 64 + OpRETURN

/-- A prototype with the given parameter count, vararg flag, register count
and code. -/
def demoProto (nParams isVararg nRegs : Nat) (code : List Nat) : Prototype :=
  ⟨"demo", 0, 0, nParams, isVararg, nRegs, code⟩

/-- A frame of the given capacity holding the given values. -/
def demoFrame (capacity : Nat) (vals : List luaValue) : luaStack :=
  { slots := vals ++ List.replicate (capacity - vals.length) .nil, top := vals.length,
    closure := none, varargs := [], pc := 0 }

/-- Three arguments. -/
def demoArgs : List luaValue := [.integer 1, .integer 2, .integer 3]

/-- A variadic interpreted closure with two fixed parameters and three
registers, whose code returns the values 1 and 2. -/
def demoLuaClosure : luaClosure := newLuaClosure (demoProto 2 1 3 [OpMOVE, demoReturn 2])

/-- A native closure returning all of its arguments. -/
def demoGoClosure : luaClosure := { proto := none, goFunc := some 2 }

/-- A caller frame holding the integer 9, then the callable and `demoArgs`. -/
def demoCaller (fn : luaValue) : luaStack := demoFrame 6 (.integer 9 :: fn :: demoArgs)

/-- A state about to run the code MOVE, JMP, RETURN, MOVE. -/
def demoRunning : LuaState :=
  ⟨[{ demoFrame 4 [.nil] with
      closure := some (newLuaClosure (demoProto 0 0 1 [OpMOVE, OpJMP, demoReturn 1, OpMOVE])) }]⟩

/-- The state `demoRunning` after its RETURN: the program counter is 3 and the
value 1 has been pushed. -/
def demoReturned : LuaState :=
  ⟨[{ demoFrame 4 [.nil, .integer 1] with
      closure := some (newLuaClosure (demoProto 0 0 1 [OpMOVE, OpJMP, demoReturn 1, OpMOVE])),
      pc := 3 }]⟩

/-- An interpreted closure whose only instruction has no handler. -/
def demoFailingLua : luaClosure := newLuaClosure (demoProto 0 0 1 [OpEXTRAARG])

/-- A native closure whose callback fails. -/
def demoFailingGo : luaClosure := { proto := none, goFunc := some 3 }

/-- A state whose only frame, of capacity 4, holds the callable alone. -/
def demoCall (c : luaClosure) : LuaState := ⟨[demoFrame 4 [.closure c]]⟩

/-- The state in which the callee of `demoCall c` starts: its frame, of the
given capacity and top marker, on top of the emptied caller. -/
def demoCallee (c : luaClosure) (capacity top : Nat) : LuaState :=
  ⟨[{ luaStack.new capacity with top := top, closure := some c }, demoFrame 4 []]⟩

/-- The state `demoCallee demoFailingLua 21 1` once its instruction has been
fetched. -/
def demoCalleeFetched : LuaState :=
  ⟨[{ luaStack.new 21 with top := 1, closure := some demoFailingLua, pc := 1 }, demoFrame 4 []]⟩

/-- A fresh state of 20 slots on which a closure returning no value has been
loaded: interpreted when `c` is `demoNoResultLua`, native when it is
`demoNoResultGo`. -/
def demoLoaded (c : luaClosure) : LuaState := ⟨[demoFrame 20 [.closure c]]⟩

/-- An interpreted closure that returns no value. -/
def demoNoResultLua : luaClosure := newLuaClosure (demoProto 0 0 0 [demoReturn 0])

/-- A native closure that returns no value. -/
def demoNoResultGo : luaClosure := { proto := none, goFunc := some 0 }

/-- A closure value with neither a prototype nor a host callback. -/
def demoEmptyClosure : luaClosure := { proto := none, goFunc := none }

/-- An interpreted closure without parameters, of one register, that returns
the value 1. -/
def demoReturnOne : luaClosure := newLuaClosure (demoProto 0 0 1 [demoReturn 1])

/-- The frame of `demoReturnOne` once its RETURN has been executed: the
program counter is 1 and the value 1 is above the register. -/
def demoReturnedFrame : luaStack :=
  { luaStack.new 21 with
      slots := .nil :: .integer 1 :: List.replicate 19 .nil, top := 2,
      closure := some demoReturnOne, pc := 1 }

/-- The state `demoCallee demoReturnOne 21 1` once its RETURN has been
executed. -/
def demoCalleeReturned : LuaState := ⟨[demoReturnedFrame, demoFrame 4 []]⟩

/-- A host callback that writes the integer 5 into the first slot of the
frame under its own, as a closure does through an open upvalue, and returns
no value. -/
def demoWriteBelow : M Int := fun s =>
  match s.frames with
  | f :: c :: tl => .ok 0 ⟨f :: { c with slots := c.slots.set 0 (.integer 5) } :: tl⟩
  | _ => .panic nilDeref s

/-- The environment `demoHost` with `demoWriteBelow` behind every handle. -/
def demoWritingHost : Host := { demoHost with goFunc := fun _ => demoWriteBelow }

/-- The caller of `demoCall` once emptied and written by `demoWriteBelow`. -/
def demoWrittenFrame : luaStack := { demoFrame 4 [] with slots := [.integer 5, .nil, .nil, .nil] }

/-- The state whose only frame is `demoCaller fn`. -/
def demoState (fn : luaValue) : LuaState := ⟨[demoCaller fn]⟩

end state

/-! ## Properties -/

namespace state

open vm

/-! ### The frame stack operations -/

theorem set_at_length {α : Type} (pre post : List α) (x v : α) :
    (pre ++ x :: post).set pre.length v = pre ++ v :: post := by
  induction pre with
  | nil => rfl
  | cons a pre ih => simp [List.set, ih]

theorem getD_at_length {α : Type} (pre post : List α) (x d : α) :
    (pre ++ x :: post).getD pre.length d = x := by
  induction pre with
  | nil => rfl
  | cons a pre ih => simpa [List.getD] using ih

theorem pushNLoop_ok (vals : List luaValue) :
    ∀ (k i : Nat) (st : luaStack) (pre post : List luaValue),
      st.slots = pre ++ post → st.top = pre.length → k ≤ post.length →
      luaStack.pushNLoop vals i k st =
        .ok () { st with slots := pre ++ padTo vals i k ++ post.drop k, top := pre.length + k } := by
  intro k
  induction k with
  | zero =>
    intro i st pre post hsl htop _
    cases st
    simp_all [luaStack.pushNLoop, padTo]
  | succ k ih =>
    intro i st pre post hsl htop hk
    cases post with
    | nil => simp at hk
    | cons x post =>
      have hlen : st.slots.length = pre.length + (post.length + 1) := by simp [hsl]
      have hpush : st.push (if i < vals.length then vals.getD i .nil else .nil) =
          .ok () { st with slots := (pre ++ [if i < vals.length then vals.getD i .nil else .nil]) ++ post,
                           top := (pre ++ [if i < vals.length then vals.getD i .nil else .nil]).length } := by
        unfold luaStack.push
        rw [if_neg (by omega), if_neg (by omega), htop, hsl, set_at_length]
        simp
      unfold luaStack.pushNLoop
      rw [hpush]
      simp only
      rw [ih (i + 1) _ (pre ++ [if i < vals.length then vals.getD i .nil else .nil]) post rfl rfl
        (by simpa using hk)]
      simp [padTo, List.range'_succ, Nat.add_assoc, Nat.add_comm 1 k]

theorem pushNLoop_overflow (vals : List luaValue) :
    ∀ (k i : Nat) (st : luaStack) (pre post : List luaValue),
      st.slots = pre ++ post → st.top = pre.length → post.length < k →
      ∃ st1, luaStack.pushNLoop vals i k st = .panic "stack overflow!" st1 := by
  intro k
  induction k with
  | zero => intro i st pre post _ _ hk; simp at hk
  | succ k ih =>
    intro i st pre post hsl htop hk
    cases post with
    | nil =>
      refine ⟨st, ?_⟩
      unfold luaStack.pushNLoop luaStack.push
      rw [if_pos (by simp [hsl, htop])]
    | cons x post =>
      have hlen : st.slots.length = pre.length + (post.length + 1) := by simp [hsl]
      have hpush : st.push (if i < vals.length then vals.getD i .nil else .nil) =
          .ok () { st with slots := (pre ++ [if i < vals.length then vals.getD i .nil else .nil]) ++ post,
                           top := (pre ++ [if i < vals.length then vals.getD i .nil else .nil]).length } := by
        unfold luaStack.push
        rw [if_neg (by omega), if_neg (by omega), htop, hsl, set_at_length]
        simp
      unfold luaStack.pushNLoop
      rw [hpush]
      simp only
      exact ih (i + 1) _ (pre ++ [if i < vals.length then vals.getD i .nil else .nil]) post rfl rfl
        (by simpa using hk)

theorem popNLoop_ok :
    ∀ (xs : List luaValue) (st : luaStack) (pre post acc : List luaValue),
      st.slots = pre ++ xs ++ post → st.top = pre.length + xs.length →
      luaStack.popNLoop xs.length st acc =
        .ok (xs ++ acc)
          { st with slots := pre ++ List.replicate xs.length .nil ++ post, top := pre.length } := by
  intro xs
  induction xs using List.reverseRecOn with
  | nil =>
    intro st pre post acc hsl htop
    cases st
    simp_all [luaStack.popNLoop]
  | append_singleton ys x ih =>
    intro st pre post acc hsl htop
    have hsl2 : st.slots = (pre ++ ys) ++ x :: post := by simp [hsl]
    have htop2 : st.top - 1 = (pre ++ ys).length := by simp [htop]
    have hpop : st.pop = .ok x { st with slots := pre ++ ys ++ (luaValue.nil :: post),
                                         top := pre.length + ys.length } := by
      unfold luaStack.pop
      rw [if_neg (by simp [htop]), if_neg (by simp [hsl, htop]), htop2, hsl2,
        set_at_length, getD_at_length]
      simp
    rw [List.length_append, List.length_singleton]
    unfold luaStack.popNLoop
    rw [hpop]
    simp only
    rw [ih _ pre (luaValue.nil :: post) (x :: acc) rfl rfl]
    simp [List.replicate_succ', List.append_assoc]


theorem padTo_length (vals : List luaValue) (i k : Nat) : (padTo vals i k).length = k := by
  simp [padTo]

theorem padTo_get (vals : List luaValue) (k j : Nat) (hj : j < k) :
    (padTo vals 0 k).get? j = some (if j < vals.length then vals.getD j .nil else .nil) := by
  simp [padTo, List.getElem?_map, List.getElem?_range', hj]

theorem padTo_self (vals : List luaValue) : padTo vals 0 vals.length = vals := by
  apply List.ext_get?
  intro j
  by_cases hj : j < vals.length
  · rw [padTo_get vals _ j hj]
    simp [hj, List.getD_eq_getElem?_getD, List.getElem?_eq_getElem hj]
  · rw [List.get?_eq_none.mpr (by simpa [padTo_length] using hj),
      List.get?_eq_none.mpr (by simpa using hj)]

theorem popN_ok (xs : List luaValue) (st : luaStack) (pre post : List luaValue)
    (hsl : st.slots = pre ++ xs ++ post) (htop : st.top = pre.length + xs.length) :
    st.popN (xs.length : Int) =
      .ok xs { st with slots := pre ++ List.replicate xs.length .nil ++ post,
                       top := pre.length } := by
  unfold luaStack.popN
  rw [if_neg (by omega), Int.toNat_ofNat, popNLoop_ok xs st pre post [] hsl htop]
  simp

theorem callLuaClosurePrepare_eq (h : Host) (c : luaClosure) (p : Prototype)
    (s : LuaState) (caller : luaStack) (rest : List luaStack)
    (below above args : List luaValue) (fn : luaValue)
    (hc : c.proto = some p) (hs : s.frames = caller :: rest)
    (hsl : caller.slots = below ++ fn :: args ++ above)
    (htop : caller.top = below.length + 1 + args.length) :
    callLuaClosurePrepare h (args.length : Int) c s =
      if p.NumParams ≤ p.MaxStackSize + h.LuaMinStack then
        .ok ()
          ⟨{ slots := padTo args 0 p.NumParams ++
                List.replicate (p.MaxStackSize + h.LuaMinStack - p.NumParams) .nil,
             top := p.MaxStackSize,
             closure := some c,
             varargs := if p.NumParams < args.length ∧ p.IsVararg = 1 then
                 args.drop p.NumParams else [],
             pc := 0 } ::
           { caller with slots := below ++ List.replicate (args.length + 1) .nil ++ above,
                         top := below.length } :: rest⟩
      else
        .panic "stack overflow!"
          ⟨{ caller with slots := below ++ List.replicate (args.length + 1) .nil ++ above,
                         top := below.length } :: rest⟩ := by
  have hpop : caller.popN ((args.length : Int) + 1) =
      .ok (fn :: args) { caller with
        slots := below ++ List.replicate (args.length + 1) .nil ++ above,
        top := below.length } := by
    have := popN_ok (fn :: args) caller below above (by simpa using hsl)
      (by simp [htop]; omega)
    simpa using this
  unfold callLuaClosurePrepare
  simp only [hc, onStack, hs, hpop]
  rw [if_neg (by simp)]
  simp only [List.drop_succ_cons, List.drop_zero]
  by_cases hcap : p.NumParams ≤ p.MaxStackSize + h.LuaMinStack
  · have hpush := pushNLoop_ok args p.NumParams 0
      { luaStack.new (p.MaxStackSize + h.LuaMinStack) with closure := some c } []
      (List.replicate (p.MaxStackSize + h.LuaMinStack) .nil) rfl rfl (by simpa using hcap)
    simp only [luaStack.pushN, if_neg (Int.not_lt.mpr (Int.ofNat_nonneg _)), Int.toNat_ofNat,
      hpush, if_pos hcap, pushLuaStack]
    by_cases hv : p.NumParams < args.length ∧ p.IsVararg = 1
    · have hv2 : (args.length : Int) > (p.NumParams : Int) ∧ (p.IsVararg == 1) = true := by
        refine ⟨by omega, by simp [hv.2]⟩
      rw [if_pos hv, if_pos hv2]
      simp [luaStack.new]
    · have hv2 : ¬ ((args.length : Int) > (p.NumParams : Int) ∧ (p.IsVararg == 1) = true) := by
        intro hh
        exact hv ⟨by omega, by simpa using hh.2⟩
      rw [if_neg hv, if_neg hv2]
      simp [luaStack.new]
  · obtain ⟨st1, hpush⟩ := pushNLoop_overflow args p.NumParams 0
      { luaStack.new (p.MaxStackSize + h.LuaMinStack) with closure := some c } []
      (List.replicate (p.MaxStackSize + h.LuaMinStack) .nil) rfl rfl (by simpa using hcap)
    simp only [luaStack.pushN, if_neg (Int.not_lt.mpr (Int.ofNat_nonneg _)), Int.toNat_ofNat,
      hpush, if_neg hcap]


/-! ### Call on a value that is not a closure -/

/-- C1. `Call` rejects a non-callable without touching the state: when the
value at relative index `-(nArgs+1)` of the current frame is not a closure,
`Call` panics with "no function!" and the state at the panic is the state
before the call (same frames, same stack contents). -/
theorem Call_rejects_non_callable (h : Host) (fuel : Nat) (nArgs nResults : Int)
    (s : LuaState) (st : luaStack) (rest : List luaStack) (v : luaValue)
    (hs : s.frames = st :: rest) (hv : st.get (-(nArgs + 1)) = some v)
    (hnc : ∀ c, v ≠ .closure c) :
    Call h fuel nArgs nResults s = .panic "no function!" s := by
  unfold Call
  rw [hs]
  cases v with
  | closure c => exact absurd rfl (hnc c)
  | nil => simp only [hv]
  | boolean b => simp only [hv]
  | integer n => simp only [hv]
  | str t => simp only [hv]

/-- Witness of C1: a call with two arguments whose callable slot holds the
integer 9. -/
theorem Call_rejects_non_callable_witness :
    (LuaState.mk [demoFrame 4 [.integer 9, .integer 1, .integer 2]]).frames =
        demoFrame 4 [.integer 9, .integer 1, .integer 2] :: [] ∧
      (demoFrame 4 [.integer 9, .integer 1, .integer 2]).get (-((2 : Int) + 1)) =
        some (.integer 9) ∧
      (∀ c, luaValue.integer 9 ≠ .closure c) ∧
      Call demoHost 5 2 1 ⟨[demoFrame 4 [.integer 9, .integer 1, .integer 2]]⟩ =
        .panic "no function!" ⟨[demoFrame 4 [.integer 9, .integer 1, .integer 2]]⟩ :=
  ⟨rfl, by decide, fun _ hc => luaValue.noConfusion hc,
    Call_rejects_non_callable demoHost 5 2 1 _ _ [] (.integer 9) rfl (by decide)
      (fun _ hc => luaValue.noConfusion hc)⟩

/-! ### The frame of an interpreted closure -/

/-- C2. Fixed-parameter binding in `callLuaClosure`: the caller's stack holds
`below`, the callable and the arguments `args`. Whenever the execution loop
starts, register `i < NumParams` of the new frame holds `args[i]` when
`i < nArgs` and nil otherwise, and every other register is nil, so that no
argument of index `NumParams` or more reaches a register. The loop fails to
start only when the parameters do not fit the frame. -/
theorem callLuaClosure_binds_fixed_params (h : Host) (c : luaClosure) (p : Prototype)
    (s : LuaState) (caller : luaStack) (rest : List luaStack)
    (below above args : List luaValue) (fn : luaValue)
    (hc : c.proto = some p) (hs : s.frames = caller :: rest)
    (hsl : caller.slots = below ++ fn :: args ++ above)
    (htop : caller.top = below.length + 1 + args.length) :
    match callLuaClosurePrepare h (args.length : Int) c s with
    | .ok _ s1 =>
      ∃ f tl, s1.frames = f :: tl ∧
        (∀ i, i < p.NumParams →
          f.slots.get? i = some (if i < args.length then args.getD i .nil else .nil)) ∧
        (∀ i, p.NumParams ≤ i → i < f.slots.length → f.slots.get? i = some .nil)
    | .panic _ _ => p.MaxStackSize + h.LuaMinStack < p.NumParams
    | .running => False := by
  rw [callLuaClosurePrepare_eq h c p s caller rest below above args fn hc hs hsl htop]
  by_cases hcap : p.NumParams ≤ p.MaxStackSize + h.LuaMinStack
  · rw [if_pos hcap]
    refine ⟨_, _, rfl, ?_, ?_⟩
    · intro i hi
      have hlen : i < (padTo args 0 p.NumParams).length := by rw [padTo_length]; exact hi
      rw [List.get?_eq_getElem?, List.getElem?_append_left hlen, ← List.get?_eq_getElem?,
        padTo_get args _ i hi]
    · intro i hi hlt
      have hlen : (padTo args 0 p.NumParams).length ≤ i := by rw [padTo_length]; exact hi
      rw [List.get?_eq_getElem?, List.getElem?_append_right hlen, List.getElem?_replicate]
      simp only [List.length_append, padTo_length, List.length_replicate] at hlt
      rw [if_pos (by rw [padTo_length]; omega)]
  · rw [if_neg hcap]
    exact Nat.lt_of_not_le hcap

/-- C3. Vararg capture in `callLuaClosure`: whenever the execution loop
starts, the vararg buffer of the new frame is `args` without its first
`NumParams` elements (of length `nArgs - NumParams`) when the prototype is
variadic and `nArgs > NumParams`, and is empty in every other case. -/
theorem callLuaClosure_captures_varargs (h : Host) (c : luaClosure) (p : Prototype)
    (s : LuaState) (caller : luaStack) (rest : List luaStack)
    (below above args : List luaValue) (fn : luaValue)
    (hc : c.proto = some p) (hs : s.frames = caller :: rest)
    (hsl : caller.slots = below ++ fn :: args ++ above)
    (htop : caller.top = below.length + 1 + args.length) :
    match callLuaClosurePrepare h (args.length : Int) c s with
    | .ok _ s1 =>
      ∃ f tl, s1.frames = f :: tl ∧
        f.varargs =
          (if p.IsVararg = 1 ∧ p.NumParams < args.length then args.drop p.NumParams else []) ∧
        f.varargs.length =
          (if p.IsVararg = 1 ∧ p.NumParams < args.length then args.length - p.NumParams else 0)
    | .panic _ _ => p.MaxStackSize + h.LuaMinStack < p.NumParams
    | .running => False := by
  rw [callLuaClosurePrepare_eq h c p s caller rest below above args fn hc hs hsl htop]
  by_cases hcap : p.NumParams ≤ p.MaxStackSize + h.LuaMinStack
  · rw [if_pos hcap]
    refine ⟨_, _, rfl, ?_, ?_⟩
    · by_cases hv : p.NumParams < args.length ∧ p.IsVararg = 1
      · rw [if_pos hv, if_pos ⟨hv.2, hv.1⟩]
      · rw [if_neg hv, if_neg (fun hh => hv ⟨hh.2, hh.1⟩)]
    · by_cases hv : p.NumParams < args.length ∧ p.IsVararg = 1
      · rw [if_pos hv, if_pos ⟨hv.2, hv.1⟩, List.length_drop]
      · rw [if_neg hv, if_neg (fun hh => hv ⟨hh.2, hh.1⟩)]
        rfl
  · rw [if_neg hcap]
    exact Nat.lt_of_not_le hcap

/-- Witness of C2: three arguments for two fixed parameters. -/
theorem callLuaClosure_binds_fixed_params_witness :
    demoLuaClosure.proto = some (demoProto 2 1 3 [OpMOVE, demoReturn 2]) ∧
      (demoState (.closure demoLuaClosure)).frames = [demoCaller (.closure demoLuaClosure)] ∧
      (demoCaller (.closure demoLuaClosure)).slots =
        [.integer 9] ++ .closure demoLuaClosure :: demoArgs ++ [.nil] ∧
      (demoCaller (.closure demoLuaClosure)).top = [luaValue.integer 9].length + 1 +
        demoArgs.length ∧
      (match callLuaClosurePrepare demoHost (demoArgs.length : Int) demoLuaClosure
          (demoState (.closure demoLuaClosure)) with
        | .ok _ s1 =>
          ∃ f tl, s1.frames = f :: tl ∧
            (∀ i, i < (demoProto 2 1 3 [OpMOVE, demoReturn 2]).NumParams →
              f.slots.get? i =
                some (if i < demoArgs.length then demoArgs.getD i .nil else .nil)) ∧
            (∀ i, (demoProto 2 1 3 [OpMOVE, demoReturn 2]).NumParams ≤ i →
              i < f.slots.length → f.slots.get? i = some .nil)
        | .panic _ _ =>
          (demoProto 2 1 3 [OpMOVE, demoReturn 2]).MaxStackSize + demoHost.LuaMinStack <
            (demoProto 2 1 3 [OpMOVE, demoReturn 2]).NumParams
        | .running => False) :=
  ⟨rfl, rfl, rfl, rfl,
    callLuaClosure_binds_fixed_params demoHost demoLuaClosure _
      (demoState (.closure demoLuaClosure)) (demoCaller (.closure demoLuaClosure)) []
      [.integer 9] [.nil] demoArgs (.closure demoLuaClosure) rfl rfl rfl rfl⟩

/-- Witness of C3: three arguments for two fixed parameters of a variadic
prototype. -/
theorem callLuaClosure_captures_varargs_witness :
    demoLuaClosure.proto = some (demoProto 2 1 3 [OpMOVE, demoReturn 2]) ∧
      (demoState (.closure demoLuaClosure)).frames = [demoCaller (.closure demoLuaClosure)] ∧
      (demoCaller (.closure demoLuaClosure)).slots =
        [.integer 9] ++ .closure demoLuaClosure :: demoArgs ++ [.nil] ∧
      (demoCaller (.closure demoLuaClosure)).top = [luaValue.integer 9].length + 1 +
        demoArgs.length ∧
      (match callLuaClosurePrepare demoHost (demoArgs.length : Int) demoLuaClosure
          (demoState (.closure demoLuaClosure)) with
        | .ok _ s1 =>
          ∃ f tl, s1.frames = f :: tl ∧
            f.varargs =
              (if (demoProto 2 1 3 [OpMOVE, demoReturn 2]).IsVararg = 1 ∧
                  (demoProto 2 1 3 [OpMOVE, demoReturn 2]).NumParams < demoArgs.length then
                demoArgs.drop (demoProto 2 1 3 [OpMOVE, demoReturn 2]).NumParams else []) ∧
            f.varargs.length =
              (if (demoProto 2 1 3 [OpMOVE, demoReturn 2]).IsVararg = 1 ∧
                  (demoProto 2 1 3 [OpMOVE, demoReturn 2]).NumParams < demoArgs.length then
                demoArgs.length - (demoProto 2 1 3 [OpMOVE, demoReturn 2]).NumParams else 0)
        | .panic _ _ =>
          (demoProto 2 1 3 [OpMOVE, demoReturn 2]).MaxStackSize + demoHost.LuaMinStack <
            (demoProto 2 1 3 [OpMOVE, demoReturn 2]).NumParams
        | .running => False) :=
  ⟨rfl, rfl, rfl, rfl,
    callLuaClosure_captures_varargs demoHost demoLuaClosure _
      (demoState (.closure demoLuaClosure)) (demoCaller (.closure demoLuaClosure)) []
      [.integer 9] [.nil] demoArgs (.closure demoLuaClosure) rfl rfl rfl rfl⟩

/-- C9, as the code has it: the new frame has `MaxStackSize + LuaMinStack`
slots and its top marker is `MaxStackSize`, whatever the number of arguments;
the marker is not the slot count. -/
theorem callLuaClosure_top_is_MaxStackSize (h : Host) (c : luaClosure) (p : Prototype)
    (s : LuaState) (caller : luaStack) (rest : List luaStack)
    (below above args : List luaValue) (fn : luaValue)
    (hc : c.proto = some p) (hs : s.frames = caller :: rest)
    (hsl : caller.slots = below ++ fn :: args ++ above)
    (htop : caller.top = below.length + 1 + args.length) :
    match callLuaClosurePrepare h (args.length : Int) c s with
    | .ok _ s1 =>
      ∃ f tl, s1.frames = f :: tl ∧
        f.slots.length = p.MaxStackSize + h.LuaMinStack ∧ f.top = p.MaxStackSize
    | .panic _ _ => p.MaxStackSize + h.LuaMinStack < p.NumParams
    | .running => False := by
  rw [callLuaClosurePrepare_eq h c p s caller rest below above args fn hc hs hsl htop]
  by_cases hcap : p.NumParams ≤ p.MaxStackSize + h.LuaMinStack
  · rw [if_pos hcap]
    refine ⟨_, _, rfl, ?_, rfl⟩
    simp only [List.length_append, padTo_length, List.length_replicate]
    omega
  · rw [if_neg hcap]
    exact Nat.lt_of_not_le hcap

/-- Witness of C9 as amended. -/
theorem callLuaClosure_top_is_MaxStackSize_witness :
    demoLuaClosure.proto = some (demoProto 2 1 3 [OpMOVE, demoReturn 2]) ∧
      (demoState (.closure demoLuaClosure)).frames = [demoCaller (.closure demoLuaClosure)] ∧
      (demoCaller (.closure demoLuaClosure)).slots =
        [.integer 9] ++ .closure demoLuaClosure :: demoArgs ++ [.nil] ∧
      (demoCaller (.closure demoLuaClosure)).top = [luaValue.integer 9].length + 1 +
        demoArgs.length ∧
      (match callLuaClosurePrepare demoHost (demoArgs.length : Int) demoLuaClosure
          (demoState (.closure demoLuaClosure)) with
        | .ok _ s1 =>
          ∃ f tl, s1.frames = f :: tl ∧
            f.slots.length =
              (demoProto 2 1 3 [OpMOVE, demoReturn 2]).MaxStackSize + demoHost.LuaMinStack ∧
            f.top = (demoProto 2 1 3 [OpMOVE, demoReturn 2]).MaxStackSize
        | .panic _ _ =>
          (demoProto 2 1 3 [OpMOVE, demoReturn 2]).MaxStackSize + demoHost.LuaMinStack <
            (demoProto 2 1 3 [OpMOVE, demoReturn 2]).NumParams
        | .running => False) :=
  ⟨rfl, rfl, rfl, rfl,
    callLuaClosure_top_is_MaxStackSize demoHost demoLuaClosure _
      (demoState (.closure demoLuaClosure)) (demoCaller (.closure demoLuaClosure)) []
      [.integer 9] [.nil] demoArgs (.closure demoLuaClosure) rfl rfl rfl rfl⟩

/-- C9 as stated fails: with a margin of 20 slots and a prototype of 3
registers the new frame has 23 slots and its top marker is 3, not 23. -/
theorem callLuaClosure_top_is_not_register_count :
    (callLuaClosurePrepare demoHost (demoArgs.length : Int) demoLuaClosure
        (demoState (.closure demoLuaClosure))).frame?.map (fun f => (f.slots.length, f.top)) =
      some (3 + demoHost.LuaMinStack, 3) ∧
    3 ≠ 3 + demoHost.LuaMinStack := by
  decide

/-! ### The frame of a native closure -/

theorem pop_ok (st : luaStack) (pre post : List luaValue) (x : luaValue)
    (hsl : st.slots = pre ++ x :: post) (htop : st.top = pre.length + 1) :
    st.pop = .ok x { st with slots := pre ++ luaValue.nil :: post, top := pre.length } := by
  have h1 : st.top - 1 = pre.length := by omega
  unfold luaStack.pop
  rw [if_neg (by omega), if_neg (by simp [hsl, htop]), h1, hsl, set_at_length, getD_at_length]

theorem callGoClosurePrepare_eq (h : Host) (c : luaClosure)
    (s : LuaState) (caller : luaStack) (rest : List luaStack)
    (below above args : List luaValue) (fn : luaValue)
    (hs : s.frames = caller :: rest)
    (hsl : caller.slots = below ++ fn :: args ++ above)
    (htop : caller.top = below.length + 1 + args.length) :
    callGoClosurePrepare h (args.length : Int) c s =
      .ok ()
        ⟨{ slots := args ++ List.replicate h.LuaMaxStack .nil,
           top := args.length,
           closure := some c,
           varargs := [],
           pc := 0 } ::
         { caller with slots := below ++ List.replicate (args.length + 1) .nil ++ above,
                       top := below.length } :: rest⟩ := by
  have hpop : caller.popN (args.length : Int) =
      .ok args { caller with
        slots := (below ++ [fn]) ++ List.replicate args.length .nil ++ above,
        top := (below ++ [fn]).length } :=
    popN_ok args caller (below ++ [fn]) above (by simp [hsl]) (by simp [htop])
  have hpop1 := pop_ok
    { caller with slots := (below ++ [fn]) ++ List.replicate args.length .nil ++ above,
                  top := (below ++ [fn]).length }
    below (List.replicate args.length .nil ++ above) fn (by simp) (by simp)
  have hpush := pushNLoop_ok args args.length 0
    { luaStack.new ((args.length : Int) + (h.LuaMaxStack : Int)).toNat with closure := some c } []
    (List.replicate (args.length + h.LuaMaxStack) .nil)
    (by
      have : ((args.length : Int) + (h.LuaMaxStack : Int)).toNat = args.length + h.LuaMaxStack := by
        omega
      simp [luaStack.new, this])
    rfl (by simp)
  unfold callGoClosurePrepare
  rw [if_neg (by omega)]
  simp only [onStack, hs, hpop, luaStack.pushN, if_neg (Int.not_lt.mpr (Int.ofNat_nonneg _)),
    Int.toNat_ofNat, hpush, hpop1, pushLuaStack, padTo_self]
  simp [luaStack.new, List.replicate_succ]

/-- C8. Native-closure argument frame: the caller's stack holds `below`, the
callable `fn` and the arguments `args`. The state on which `callGoClosure`
invokes the host callback has a new current frame whose stack is exactly
`args`, bottom to top, without the callable, on top of the caller's frame,
whose stack is `below`: callable and arguments are gone, the slots under the
callable are unchanged. -/
theorem callGoClosure_argument_frame (h : Host) (c : luaClosure)
    (s : LuaState) (caller : luaStack) (rest : List luaStack)
    (below above args : List luaValue) (fn : luaValue)
    (hs : s.frames = caller :: rest)
    (hsl : caller.slots = below ++ fn :: args ++ above)
    (htop : caller.top = below.length + 1 + args.length) :
    ∃ f caller1, callGoClosurePrepare h (args.length : Int) c s = .ok () ⟨f :: caller1 :: rest⟩ ∧
      f.values = args ∧ f.top = args.length ∧
      caller1.values = below ∧ caller1.top = below.length ∧
      caller1.slots.length = caller.slots.length := by
  refine ⟨_, _, callGoClosurePrepare_eq h c s caller rest below above args fn hs hsl htop,
    ?_, rfl, ?_, rfl, ?_⟩
  · simp [luaStack.values]
  · simp [luaStack.values]
  · simp [hsl]
    omega

/-- Witness of C8: three arguments above a native closure. -/
theorem callGoClosure_argument_frame_witness :
    (demoState (.closure demoGoClosure)).frames = [demoCaller (.closure demoGoClosure)] ∧
      (demoCaller (.closure demoGoClosure)).slots =
        [.integer 9] ++ .closure demoGoClosure :: demoArgs ++ [.nil] ∧
      (demoCaller (.closure demoGoClosure)).top = [luaValue.integer 9].length + 1 +
        demoArgs.length ∧
      ∃ f caller1,
        callGoClosurePrepare demoHost (demoArgs.length : Int) demoGoClosure
            (demoState (.closure demoGoClosure)) = .ok () ⟨f :: caller1 :: []⟩ ∧
          f.values = demoArgs ∧ f.top = demoArgs.length ∧
          caller1.values = [.integer 9] ∧ caller1.top = [luaValue.integer 9].length ∧
          caller1.slots.length = (demoCaller (.closure demoGoClosure)).slots.length :=
  ⟨rfl, rfl, rfl,
    callGoClosure_argument_frame demoHost demoGoClosure (demoState (.closure demoGoClosure))
      (demoCaller (.closure demoGoClosure)) [] [.integer 9] [.nil] demoArgs
      (.closure demoGoClosure) rfl rfl rfl⟩


/-! ### The execution loop -/

theorem fetchExecute_succ (h : Host) (n : Nat) (s : LuaState) :
    fetchExecute h (n + 1) s =
      match h.Fetch s with
      | .ok inst s1 =>
        match h.Execute inst s1 with
        | .ok _ s2 =>
          match fetchExecute h n s2 with
          | .ok rest s3 => .ok (inst :: rest) s3
          | .panic m s3 => .panic m s3
          | .running => .running
        | .panic m s2 => .panic m s2
        | .running => .running
      | .panic m s1 => .panic m s1
      | .running => .running := by
  simp only [fetchExecute, bind, pure]
  cases h.Fetch s with
  | ok inst s1 =>
    simp only
    cases h.Execute inst s1 with
    | ok u s2 =>
      simp only
      cases fetchExecute h n s2 <;> rfl
    | panic m s2 => rfl
    | running => rfl
  | panic m s1 => rfl
  | running => rfl

theorem runLuaClosure_succ (h : Host) (fuel : Nat) (s : LuaState) :
    runLuaClosure h (fuel + 1) s =
      match h.Fetch s with
      | .ok inst s1 =>
        match h.Execute inst s1 with
        | .ok _ s2 =>
          if Opcode inst = OpRETURN then .ok [inst] s2
          else
            match runLuaClosure h fuel s2 with
            | .ok rest s3 => .ok (inst :: rest) s3
            | .panic m s3 => .panic m s3
            | .running => .running
        | .panic m s2 => .panic m s2
        | .running => .running
      | .panic m s1 => .panic m s1
      | .running => .running := by
  simp only [runLuaClosure, bind, pure]
  cases h.Fetch s with
  | ok inst s1 =>
    simp only
    cases h.Execute inst s1 with
    | ok u s2 =>
      simp only
      by_cases hop : Opcode inst = OpRETURN
      · simp only [if_pos hop]
      · simp only [if_neg hop]
        cases runLuaClosure h fuel s2 <;> rfl
    | panic m s2 => rfl
    | running => rfl
  | panic m s1 => rfl
  | running => rfl

/-- C7. `runLuaClosure` stops exactly at the first RETURN: if fetching and
executing `k+1` instructions in a row succeeds and yields the instructions
`is`, of which the last one is the first RETURN, then with enough fuel the
loop returns after having fetched and executed exactly `is`, in that order:
its final state is the one the handler of the RETURN left, and nothing is
fetched after it. -/
theorem runLuaClosure_stops_at_first_RETURN (h : Host) (k : Nat) :
    ∀ (s s1 : LuaState) (is : List Instruction) (fuel : Nat),
      fetchExecute h (k + 1) s = .ok is s1 →
      (∀ j i, j < k → is.get? j = some i → Opcode i ≠ OpRETURN) →
      (∀ i, is.get? k = some i → Opcode i = OpRETURN) →
      k + 1 ≤ fuel →
      runLuaClosure h fuel s = .ok is s1 ∧ is.length = k + 1 := by
  induction k with
  | zero =>
    intro s s1 is fuel hrun _ hret hfuel
    obtain ⟨fuel, rfl⟩ : ∃ f, fuel = f + 1 := ⟨fuel - 1, by omega⟩
    rw [fetchExecute_succ] at hrun
    rw [runLuaClosure_succ]
    cases hF : h.Fetch s with
    | ok inst s2 =>
      rw [hF] at hrun
      simp only at hrun ⊢
      cases hE : h.Execute inst s2 with
      | ok u s3 =>
        rw [hE] at hrun
        simp only [fetchExecute, pure] at hrun ⊢
        injection hrun with his hs
        subst his hs
        rw [if_pos (hret inst rfl)]
        exact ⟨rfl, rfl⟩
      | panic m s3 => rw [hE] at hrun; cases hrun
      | running => rw [hE] at hrun; cases hrun
    | panic m s2 => rw [hF] at hrun; cases hrun
    | running => rw [hF] at hrun; cases hrun
  | succ k ih =>
    intro s s1 is fuel hrun hfirst hret hfuel
    obtain ⟨fuel, rfl⟩ : ∃ f, fuel = f + 1 := ⟨fuel - 1, by omega⟩
    rw [fetchExecute_succ] at hrun
    rw [runLuaClosure_succ]
    cases hF : h.Fetch s with
    | ok inst s2 =>
      rw [hF] at hrun
      simp only at hrun ⊢
      cases hE : h.Execute inst s2 with
      | ok u s3 =>
        rw [hE] at hrun
        simp only at hrun ⊢
        cases hR : fetchExecute h (k + 1) s3 with
        | ok rest s4 =>
          rw [hR] at hrun
          simp only at hrun
          injection hrun with his hs
          subst his hs
          have hne : Opcode inst ≠ OpRETURN := hfirst 0 inst (Nat.succ_pos k) rfl
          rw [if_neg hne]
          have hrec := ih s3 s4 rest fuel hR
            (fun j i hj hi => hfirst (j + 1) i (by omega) (by simpa using hi))
            (fun i hi => hret i (by simpa using hi)) (by omega)
          rw [hrec.1]
          exact ⟨rfl, by simp [hrec.2]⟩
        | panic m s4 => rw [hR] at hrun; cases hrun
        | running => rw [hR] at hrun; cases hrun
      | panic m s3 => rw [hE] at hrun; cases hrun
      | running => rw [hE] at hrun; cases hrun
    | panic m s2 => rw [hF] at hrun; cases hrun
    | running => rw [hF] at hrun; cases hrun

/-- Witness of C7: MOVE, JMP, RETURN, MOVE; the loop ends after the third
instruction. -/
theorem runLuaClosure_stops_at_first_RETURN_witness :
    ∃ s1,
      fetchExecute demoHost (2 + 1) demoRunning = .ok [OpMOVE, OpJMP, demoReturn 1] s1 ∧
      (∀ j i, j < 2 → [OpMOVE, OpJMP, demoReturn 1].get? j = some i → Opcode i ≠ OpRETURN) ∧
      (∀ i, [OpMOVE, OpJMP, demoReturn 1].get? 2 = some i → Opcode i = OpRETURN) ∧
      2 + 1 ≤ 7 ∧
      runLuaClosure demoHost 7 demoRunning = .ok [OpMOVE, OpJMP, demoReturn 1] s1 ∧
      [OpMOVE, OpJMP, demoReturn 1].length = 2 + 1 :=
  have hrun : fetchExecute demoHost (2 + 1) demoRunning =
      .ok [OpMOVE, OpJMP, demoReturn 1] demoReturned := by decide
  have hfirst : ∀ j i, j < 2 → [OpMOVE, OpJMP, demoReturn 1].get? j = some i →
      Opcode i ≠ OpRETURN := by
    intro j i hj hi
    interval_cases j <;> simp at hi <;> subst hi <;> decide
  have hret : ∀ i, [OpMOVE, OpJMP, demoReturn 1].get? 2 = some i → Opcode i = OpRETURN := by
    intro i hi
    simp at hi
    subst hi
    decide
  ⟨demoReturned, hrun, hfirst, hret, by decide,
    runLuaClosure_stops_at_first_RETURN demoHost 2 demoRunning demoReturned
      [OpMOVE, OpJMP, demoReturn 1] 7 hrun hfirst hret (by decide)⟩

theorem onStack_depth {α : Type} (f : luaStack → Res luaStack α) (s s1 : LuaState) (a : α)
    (h : onStack f s = .ok a s1) : s1.frames.length = s.frames.length := by
  unfold onStack at h
  cases hfr : s.frames with
  | nil => rw [hfr] at h; cases h
  | cons st rest =>
    rw [hfr] at h
    simp only at h
    cases hf : f st with
    | ok b st1 =>
      rw [hf] at h
      injection h with _ hs
      subst hs
      rfl
    | panic m st1 => rw [hf] at h; cases h
    | running => rw [hf] at h; cases h

theorem callLuaClosurePrepare_depth (h : Host) (nArgs : Int) (c : luaClosure)
    (s s1 : LuaState) (hp : callLuaClosurePrepare h nArgs c s = .ok () s1) :
    s1.frames.length = s.frames.length + 1 := by
  unfold callLuaClosurePrepare at hp
  cases hc : c.proto with
  | none => rw [hc] at hp; cases hp
  | some p =>
    rw [hc] at hp
    simp only at hp
    cases hpop : onStack (fun st => st.popN (nArgs + 1)) s with
    | panic m s2 => rw [hpop] at hp; cases hp
    | running => rw [hpop] at hp; cases hp
    | ok funcAndArgs s2 =>
      rw [hpop] at hp
      simp only at hp
      have hd := onStack_depth _ s s2 funcAndArgs hpop
      split at hp
      · cases hp
      · split at hp
        · cases hp
        · cases hp
        · simp only [pushLuaStack] at hp
          injection hp with _ hs
          subst hs
          simp [hd]

theorem callGoClosurePrepare_depth (h : Host) (nArgs : Int) (c : luaClosure)
    (s s1 : LuaState) (hp : callGoClosurePrepare h nArgs c s = .ok () s1) :
    s1.frames.length = s.frames.length + 1 := by
  unfold callGoClosurePrepare at hp
  split at hp
  · cases hp
  · simp only at hp
    cases hpop : onStack (fun st => st.popN nArgs) s with
    | panic m s2 => rw [hpop] at hp; cases hp
    | running => rw [hpop] at hp; cases hp
    | ok args s2 =>
      rw [hpop] at hp
      simp only at hp
      have hd := onStack_depth _ s s2 args hpop
      split at hp
      · cases hp
      · cases hp
      · cases hpop1 : onStack (fun st => st.pop) s2 with
        | panic m s3 => rw [hpop1] at hp; cases hp
        | running => rw [hpop1] at hp; cases hp
        | ok v s3 =>
          rw [hpop1] at hp
          simp only [pushLuaStack] at hp
          have hd1 := onStack_depth _ s2 s3 v hpop1
          injection hp with _ hs
          subst hs
          simp [hd, hd1]

/-- C5, as the code has it: an error raised while the callee executes (by an
opcode handler inside the execution loop, or by the host callback) leaves
`Call` at once, in the state the failing code left: `popLuaStack` is not run
on either path. The callee started with one frame more than the caller had,
and that frame is not removed by `Call`. -/
theorem Call_error_keeps_callee_frame (h : Host) (fuel : Nat) (nArgs nResults : Int)
    (s s1 sp : LuaState) (st : luaStack) (rest : List luaStack) (c : luaClosure) (m : String)
    (hs : s.frames = st :: rest) (hv : st.get (-(nArgs + 1)) = some (.closure c)) :
    (c.proto ≠ none → callLuaClosurePrepare h nArgs c s = .ok () s1 →
      runLuaClosure h fuel s1 = .panic m sp →
      Call h fuel nArgs nResults s = .panic m sp ∧ s1.frames.length = s.frames.length + 1) ∧
    (c.proto = none → ∀ f, c.goFunc = some f → callGoClosurePrepare h nArgs c s = .ok () s1 →
      h.goFunc f s1 = .panic m sp →
      Call h fuel nArgs nResults s = .panic m sp ∧ s1.frames.length = s.frames.length + 1) := by
  constructor
  · intro hproto hprep hrun
    refine ⟨?_, callLuaClosurePrepare_depth h nArgs c s s1 hprep⟩
    unfold Call
    rw [hs]
    simp only [hv, if_pos hproto]
    simp only [callLuaClosure, bind, hprep, hrun]
  · intro hproto f hf hprep hrun
    refine ⟨?_, callGoClosurePrepare_depth h nArgs c s s1 hprep⟩
    unfold Call
    rw [hs]
    have hgo : c.goFunc ≠ none := by rw [hf]; exact Option.some_ne_none f
    simp only [hv, if_neg (not_not.mpr hproto), if_pos hgo]
    simp only [callGoClosure, bind, hprep, hf, hrun]

/-- Witness of C5 as amended, on the interpreted path: the only instruction
of the callee has no handler. -/
theorem Call_error_keeps_callee_frame_witness :
    (demoCall demoFailingLua).frames = [demoFrame 4 [.closure demoFailingLua]] ∧
      (demoFrame 4 [.closure demoFailingLua]).get (-((0 : Int) + 1)) =
        some (.closure demoFailingLua) ∧
      demoFailingLua.proto ≠ none ∧
      callLuaClosurePrepare demoHost 0 demoFailingLua (demoCall demoFailingLua) =
        .ok () (demoCallee demoFailingLua 21 1) ∧
      runLuaClosure demoHost 5 (demoCallee demoFailingLua 21 1) =
        .panic "EXTRAARG" demoCalleeFetched ∧
      Call demoHost 5 0 1 (demoCall demoFailingLua) = .panic "EXTRAARG" demoCalleeFetched ∧
      (demoCallee demoFailingLua 21 1).frames.length =
        (demoCall demoFailingLua).frames.length + 1 :=
  ⟨rfl, by decide, by decide, by decide, by decide,
    (Call_error_keeps_callee_frame demoHost 5 0 1 (demoCall demoFailingLua)
      (demoCallee demoFailingLua 21 1) demoCalleeFetched
      (demoFrame 4 [.closure demoFailingLua]) [] demoFailingLua "EXTRAARG" rfl (by decide)).1
      (by decide) (by decide) (by decide)⟩

/-- C5 as stated fails: when the callee fails, on the interpreted path and on
the native path, the error leaves `Call` with the callee's frame still
current and a call stack of depth 2, the depth before the call being 1. -/
theorem Call_error_does_not_pop_frame :
    (demoCall demoFailingLua).frames.length = 1 ∧
    (Call demoHost 5 0 1 (demoCall demoFailingLua)).panicMsg? = some "EXTRAARG" ∧
    (Call demoHost 5 0 1 (demoCall demoFailingLua)).depth? = some 2 ∧
    ((Call demoHost 5 0 1 (demoCall demoFailingLua)).frame?.bind (·.closure)) =
      some demoFailingLua ∧
    (demoCall demoFailingGo).frames.length = 1 ∧
    (Call demoHost 5 0 1 (demoCall demoFailingGo)).panicMsg? = some "host error" ∧
    (Call demoHost 5 0 1 (demoCall demoFailingGo)).depth? = some 2 ∧
    ((Call demoHost 5 0 1 (demoCall demoFailingGo)).frame?.bind (·.closure)) =
      some demoFailingGo := by
  decide

/-! ### Results -/

theorem check_eq (st : luaStack) (pre post : List luaValue) (n : Nat)
    (hsl : st.slots = pre ++ post) (htop : st.top = pre.length) :
    st.check n = { st with slots := pre ++ (post ++ List.replicate (n - post.length) .nil) } := by
  have hn : ((n : Int) - ((st.slots.length : Int) - (st.top : Int))).toNat = n - post.length := by
    simp only [hsl, htop, List.length_append]
    omega
  unfold luaStack.check
  rw [hn, hsl, List.append_assoc]

/-- Lines 58-62 and 87-91 when the caller has room: with `free` slots above
the caller's top, `nResults = n` values are pushed whenever
`n ≤ max (len results) free`: the first `min n (len results)` results, then
nils. -/
theorem pushResults_ok (rs : List luaValue) (n : Nat) (s : LuaState) (caller : luaStack)
    (rest : List luaStack) (pre post : List luaValue)
    (hs : s.frames = caller :: rest) (hsl : caller.slots = pre ++ post)
    (htop : caller.top = pre.length) (hroom : n ≤ max rs.length post.length) :
    ∃ caller1, pushResults rs (n : Int) s = .ok () ⟨caller1 :: rest⟩ ∧
      caller1.values = pre ++ padTo rs 0 n ∧ caller1.top = pre.length + n := by
  have hk : n ≤ (post ++ List.replicate (rs.length - post.length) luaValue.nil).length := by
    simp only [List.length_append, List.length_replicate]
    omega
  have hpush := pushNLoop_ok rs n 0 (caller.check rs.length) pre
    (post ++ List.replicate (rs.length - post.length) .nil)
    (by rw [check_eq caller pre post rs.length hsl htop])
    (by rw [check_eq caller pre post rs.length hsl htop]; exact htop) hk
  refine ⟨{ caller.check rs.length with
      slots := pre ++ padTo rs 0 n ++
        (post ++ List.replicate (rs.length - post.length) luaValue.nil).drop n,
      top := pre.length + n }, ?_, ?_, rfl⟩
  · simp only [pushResults, bind, onStack, hs, luaStack.pushN,
      if_neg (Int.not_lt.mpr (Int.ofNat_nonneg _)), Int.toNat_ofNat, hpush]
  · simp [luaStack.values, padTo_length, List.take_append_eq_append_take]

/-- Lines 58-62 and 87-91 when the caller has no room: `check` reserves
`len results` slots only, so that pushing `nResults = n` values overflows the
caller's stack as soon as `n` exceeds both `len results` and the number of
free slots. -/
theorem pushResults_overflow (rs : List luaValue) (n : Nat) (s : LuaState)
    (caller : luaStack) (rest : List luaStack) (pre post : List luaValue)
    (hs : s.frames = caller :: rest) (hsl : caller.slots = pre ++ post)
    (htop : caller.top = pre.length) (hroom : max rs.length post.length < n) :
    ∃ s1, pushResults rs (n : Int) s = .panic "stack overflow!" s1 := by
  have hk : (post ++ List.replicate (rs.length - post.length) luaValue.nil).length < n := by
    simp only [List.length_append, List.length_replicate]
    omega
  obtain ⟨st1, hpush⟩ := pushNLoop_overflow rs n 0 (caller.check rs.length) pre
    (post ++ List.replicate (rs.length - post.length) .nil)
    (by rw [check_eq caller pre post rs.length hsl htop])
    (by rw [check_eq caller pre post rs.length hsl htop]; exact htop) hk
  refine ⟨⟨st1 :: rest⟩, ?_⟩
  simp only [pushResults, bind, onStack, hs, luaStack.pushN,
    if_neg (Int.not_lt.mpr (Int.ofNat_nonneg _)), Int.toNat_ofNat, hpush]

/-- C4, at the failing input: on a fresh stack of 20 slots holding only a
closure that returns no value, `Call(0, 21)` does not leave 21 nils on the
caller's stack: `check` is asked for `len(results) = 0` slots, `pushN` pushes
21 values and the 21st push panics, on the interpreted path and on the native
path. With `nResults = 20` the same call returns with 20 nils. -/
theorem Call_results_overflow :
    (Call demoHost 5 0 21 (demoLoaded demoNoResultLua)).panicMsg? = some "stack overflow!" ∧
    (Call demoHost 5 0 21 (demoLoaded demoNoResultGo)).panicMsg? = some "stack overflow!" ∧
    Call demoHost 5 0 20 (demoLoaded demoNoResultLua) =
      .ok () ⟨[{ demoFrame 20 [] with top := 20 }]⟩ ∧
    Call demoHost 5 0 20 (demoLoaded demoNoResultGo) =
      .ok () ⟨[{ demoFrame 20 [] with top := 20 }]⟩ := by
  decide

end state

/-! ### The opcode table -/

namespace vm

/-- C6, at the failing input: the table follows the constants except for
`OpTFORLOOP` (41) and `OpTFORCALL` (42), whose entries are each other's: the
entry at index 41 is named TFORCALL and the entry at index 42 TFORLOOP. -/
theorem opcodes_TFOR_entries_swapped :
    misnamed = [("TFORLOOP", OpTFORLOOP), ("TFORCALL", OpTFORCALL)] ∧
    (opcodeAt OpTFORLOOP).map (·.name) = some "TFORCALL" ∧
    (opcodeAt OpTFORCALL).map (·.name) = some "TFORLOOP" ∧
    OpName OpTFORLOOP = some "TFORCALL" ∧ OpName OpTFORCALL = some "TFORLOOP" := by
  decide

theorem opcodeAt_range :
    ∀ o, o < 64 → (o ≤ 46 → (opcodeAt o).isSome = true) ∧ (47 ≤ o → opcodeAt o = none) := by
  decide

/-- C10. Descriptor lookup is total exactly on the opcode range: the table
has 47 entries, and for every 32-bit word `w`, whose opcode is at most 63,
`OpName`, `OpMode`, `BMode` and `CMode` return the fields of the entry at
index `Opcode w` when that is at most 46, and fail on an index out of range
when it is 47 or more. -/
theorem descriptor_lookup_total_on_opcode_range (w : Instruction) (hw : w < 2 ^ 32) :
    opcodes.length = 47 ∧ Opcode w ≤ 63 ∧
    (if Opcode w ≤ 46 then
      ∃ d, opcodes.get? (Opcode w) = some d ∧ OpName w = some d.name ∧
        OpMode w = some d.opMode ∧ BMode w = some d.argBMode ∧ CMode w = some d.argCMode
    else
      47 ≤ Opcode w ∧ OpName w = none ∧ OpMode w = none ∧ BMode w = none ∧ CMode w = none) := by
  have _ := hw
  have h64 : Opcode w < 64 := Nat.mod_lt w (by decide)
  refine ⟨by decide, Nat.le_of_lt_succ h64, ?_⟩
  obtain ⟨hin, hout⟩ := opcodeAt_range (Opcode w) h64
  by_cases hle : Opcode w ≤ 46
  · rw [if_pos hle]
    obtain ⟨d, hd⟩ := Option.isSome_iff_exists.mp (hin hle)
    refine ⟨d, hd, ?_, ?_, ?_, ?_⟩ <;> simp [OpName, OpMode, BMode, CMode, hd]
  · rw [if_neg hle]
    have hno := hout (by omega)
    refine ⟨by omega, ?_, ?_, ?_, ?_⟩ <;> simp [OpName, OpMode, BMode, CMode, hno]

/-- Witness of C10: the word of a RETURN instruction. -/
theorem descriptor_lookup_total_on_opcode_range_witness :
    (166 : Nat) < 2 ^ 32 ∧
    opcodes.length = 47 ∧ Opcode 166 ≤ 63 ∧
    (if Opcode 166 ≤ 46 then
      ∃ d, opcodes.get? (Opcode 166) = some d ∧ OpName 166 = some d.name ∧
        OpMode 166 = some d.opMode ∧ BMode 166 = some d.argBMode ∧
        CMode 166 = some d.argCMode
    else
      47 ≤ Opcode 166 ∧ OpName 166 = none ∧ OpMode 166 = none ∧ BMode 166 = none ∧
        CMode 166 = none) :=
  ⟨by decide, descriptor_lookup_total_on_opcode_range 166 (by decide)⟩

/-- C11. The test flag marks exactly the comparison and test opcodes: for
every opcode `o` of 0..46 the entry at `o` has `testFlag = 1` when `o` is one
of `OpEQ`, `OpLT`, `OpLE`, `OpTEST`, `OpTESTSET` (31..35) and `testFlag = 0`
otherwise; 42 entries have the flag 0. -/
theorem testFlag_marks_comparisons :
    ∀ o, o < 47 →
      (opcodeAt o).map (·.testFlag) =
          some (if o ∈ [OpEQ, OpLT, OpLE, OpTEST, OpTESTSET] then 1 else 0) ∧
        (o ∈ [OpEQ, OpLT, OpLE, OpTEST, OpTESTSET] ↔ 31 ≤ o ∧ o ≤ 35) ∧
        (opcodes.filter (fun d => d.testFlag = 0)).length = 42 := by
  decide

/-- Witness of C11: the opcode of TEST. -/
theorem testFlag_marks_comparisons_witness :
    OpTEST < 47 ∧
      (opcodeAt OpTEST).map (·.testFlag) =
          some (if OpTEST ∈ [OpEQ, OpLT, OpLE, OpTEST, OpTESTSET] then 1 else 0) ∧
        (OpTEST ∈ [OpEQ, OpLT, OpLE, OpTEST, OpTESTSET] ↔ 31 ≤ OpTEST ∧ OpTEST ≤ 35) ∧
        (opcodes.filter (fun d => d.testFlag = 0)).length = 42 :=
  ⟨by decide, testFlag_marks_comparisons OpTEST (by decide)⟩

/-- C12. Declared layout of every opcode: for every descriptor of the table,
`opMode` is `IAx` exactly when its name is EXTRAARG, `IAsBx` exactly when its
name is JMP, FORLOOP, FORPREP or TFORLOOP, `IABx` exactly when its name is
LOADK, LOADKX or CLOSURE, and `IABC` for every other descriptor, of which
there are 39. -/
theorem opMode_by_name :
    ∀ d, d ∈ opcodes →
      (d.opMode = IAx ↔ trimName d.name = "EXTRAARG") ∧
      (d.opMode = IAsBx ↔ trimName d.name ∈ ["JMP", "FORLOOP", "FORPREP", "TFORLOOP"]) ∧
      (d.opMode = IABx ↔ trimName d.name ∈ ["LOADK", "LOADKX", "CLOSURE"]) ∧
      (d.opMode = IABC ↔
        trimName d.name ∉
          ["EXTRAARG", "JMP", "FORLOOP", "FORPREP", "TFORLOOP", "LOADK", "LOADKX", "CLOSURE"]) ∧
      (opcodes.filter (fun e => e.opMode = IABC)).length = 39 := by
  decide

/-- Witness of C12: the descriptor of JMP. -/
theorem opMode_by_name_witness :
    (⟨0, 0, OpArgR, OpArgN, IAsBx, "JMP     ", some "jmp"⟩ : opcode) ∈ opcodes ∧
      (IAsBx = IAx ↔ trimName "JMP     " = "EXTRAARG") ∧
      (IAsBx = IAsBx ↔ trimName "JMP     " ∈ ["JMP", "FORLOOP", "FORPREP", "TFORLOOP"]) ∧
      (IAsBx = IABx ↔ trimName "JMP     " ∈ ["LOADK", "LOADKX", "CLOSURE"]) ∧
      (IAsBx = IABC ↔
        trimName "JMP     " ∉
          ["EXTRAARG", "JMP", "FORLOOP", "FORPREP", "TFORLOOP", "LOADK", "LOADKX", "CLOSURE"]) ∧
      (opcodes.filter (fun e => e.opMode = IABC)).length = 39 :=
  ⟨by decide, opMode_by_name ⟨0, 0, OpArgR, OpArgN, IAsBx, "JMP     ", some "jmp"⟩ (by decide)⟩

/-- C13. Operand addressing of the arithmetic group: every opcode from
`OpADD` to `OpSHR` (13..24) has layout `IABC` with `argBMode` and `argCMode`
both `OpArgK`; every opcode from `OpUNM` to `OpLEN` (25..28) has `argBMode`
`OpArgR` and `argCMode` `OpArgN`; all sixteen have `setAFlag = 1` and
`testFlag = 0`. -/
theorem arithmetic_group_modes :
    ∀ o, o < 47 → OpADD ≤ o → o ≤ OpLEN →
      (opcodeAt o).map (fun d => (d.setAFlag, d.testFlag)) = some (1, 0) ∧
      (if o ≤ OpSHR then
        (opcodeAt o).map (fun d => (d.opMode, d.argBMode, d.argCMode)) =
          some (IABC, OpArgK, OpArgK)
      else
        (opcodeAt o).map (fun d => (d.argBMode, d.argCMode)) = some (OpArgR, OpArgN)) ∧
      (OpADD, OpSHR, OpUNM, OpBNOT, OpNOT, OpLEN) = (13, 24, 25, 26, 27, 28) := by
  intro o ho hlo hhi
  have h1 : 13 ≤ o := hlo
  have h2 : o ≤ 28 := hhi
  have _ := ho
  interval_cases o <;> decide

/-- Witness of C13: the opcode of BNOT. -/
theorem arithmetic_group_modes_witness :
    OpBNOT < 47 ∧ OpADD ≤ OpBNOT ∧ OpBNOT ≤ OpLEN ∧
      (opcodeAt OpBNOT).map (fun d => (d.setAFlag, d.testFlag)) = some (1, 0) ∧
      (if OpBNOT ≤ OpSHR then
        (opcodeAt OpBNOT).map (fun d => (d.opMode, d.argBMode, d.argCMode)) =
          some (IABC, OpArgK, OpArgK)
      else
        (opcodeAt OpBNOT).map (fun d => (d.argBMode, d.argCMode)) = some (OpArgR, OpArgN)) ∧
      (OpADD, OpSHR, OpUNM, OpBNOT, OpNOT, OpLEN) = (13, 24, 25, 26, 27, 28) :=
  ⟨by decide, by decide, by decide,
    arithmetic_group_modes OpBNOT (by decide) (by decide) (by decide)⟩

/-- C16. Every opcode except EXTRAARG has a handler: for every opcode `o` of
0..46 the `action` of the entry at `o` is nil exactly when `o` is
`OpEXTRAARG` (46); the other 46 entries carry a handler. -/
theorem action_nil_only_for_EXTRAARG :
    ∀ o, o < 47 →
      (opcodeAt o).map (fun d => decide (d.action = none)) = some (decide (o = OpEXTRAARG)) ∧
      OpEXTRAARG = 46 ∧
      (opcodes.filter (fun d => d.action ≠ none)).length = 46 := by
  decide

/-- Witness of C16: the opcode of EXTRAARG. -/
theorem action_nil_only_for_EXTRAARG_witness :
    OpEXTRAARG < 47 ∧
      (opcodeAt OpEXTRAARG).map (fun d => decide (d.action = none)) =
        some (decide (OpEXTRAARG = OpEXTRAARG)) ∧
      OpEXTRAARG = 46 ∧
      (opcodes.filter (fun d => d.action ≠ none)).length = 46 :=
  ⟨by decide, action_nil_only_for_EXTRAARG OpEXTRAARG (by decide)⟩

/-- C19. Operand modes agree with the layout: every descriptor of the table
whose layout is `IABx` or `IAsBx`, which has no C field, has `argCMode`
`OpArgN`. -/
theorem no_C_field_means_OpArgN :
    ∀ d, d ∈ opcodes → d.opMode = IABx ∨ d.opMode = IAsBx → d.argCMode = OpArgN := by
  decide

/-- Witness of C19: the descriptor of FORPREP. -/
theorem no_C_field_means_OpArgN_witness :
    (⟨0, 1, OpArgR, OpArgN, IAsBx, "FORPREP ", some "luaForPrep"⟩ : opcode) ∈ opcodes ∧
      (IAsBx = IABx ∨ IAsBx = IAsBx) ∧ OpArgN = OpArgN :=
  ⟨by decide, Or.inr rfl,
    no_C_field_means_OpArgN ⟨0, 1, OpArgR, OpArgN, IAsBx, "FORPREP ", some "luaForPrep"⟩
      (by decide) (Or.inr rfl)⟩

end vm

/-! ## Load, empty closures and frame balance -/

namespace state

open vm

/-- C17. A closure value with neither a prototype nor a host callback is
silently ignored: when the value at relative index `-(nArgs+1)` is a closure
whose `proto` and `goFunc` are both nil, `Call` returns normally and the
state is the one before the call: the caller's stack, callable and arguments
included, and the chain of frames are unchanged and no result is pushed,
whatever `nResults` is. -/
theorem Call_ignores_empty_closure (h : Host) (fuel : Nat) (nArgs nResults : Int)
    (s : LuaState) (st : luaStack) (rest : List luaStack) (c : luaClosure)
    (hs : s.frames = st :: rest) (hv : st.get (-(nArgs + 1)) = some (.closure c))
    (hp : c.proto = none) (hg : c.goFunc = none) :
    Call h fuel nArgs nResults s = .ok () s := by
  unfold Call
  rw [hs]
  simp only [hv, hp, hg, ne_eq, not_true_eq_false, if_false]

/-- Witness of C17: three arguments above an empty closure, five results
asked for. -/
theorem Call_ignores_empty_closure_witness :
    (demoState (.closure demoEmptyClosure)).frames = [demoCaller (.closure demoEmptyClosure)] ∧
      (demoCaller (.closure demoEmptyClosure)).get (-((3 : Int) + 1)) =
        some (.closure demoEmptyClosure) ∧
      demoEmptyClosure.proto = none ∧ demoEmptyClosure.goFunc = none ∧
      Call demoHost 5 3 5 (demoState (.closure demoEmptyClosure)) =
        .ok () (demoState (.closure demoEmptyClosure)) :=
  ⟨rfl, by decide, rfl, rfl,
    Call_ignores_empty_closure demoHost 5 3 5 (demoState (.closure demoEmptyClosure))
      (demoCaller (.closure demoEmptyClosure)) [] demoEmptyClosure rfl (by decide) rfl rfl⟩

theorem push_ok (st : luaStack) (pre post : List luaValue) (x v : luaValue)
    (hsl : st.slots = pre ++ x :: post) (htop : st.top = pre.length) :
    st.push v = .ok () { st with slots := pre ++ v :: post, top := pre.length + 1 } := by
  have hlen : st.slots.length = pre.length + (post.length + 1) := by simp [hsl]
  unfold luaStack.push
  rw [if_neg (by omega), if_neg (by omega), htop, hsl, set_at_length]

/-- C14. `Load` pushes the root closure and reports success: when
`binchunk.Undump` returns the prototype `p`, `Load` on a current frame whose
stack is `vals` returns only with the status 0, the stack of the current
frame being `vals` followed by the interpreted closure of `p`: one more
value, on top, the lower slots, the capacity and the frames below being
unchanged. `Load` never runs on, and it fails to return only when the frame
has no slot left for the push, the state being then untouched. The outcome is
the same for every `chunkName` and `mode`. -/
theorem Load_pushes_root_closure (h : Host) (chunk : List Nat) (chunkName mode : String)
    (p : Prototype) (s : LuaState) (st : luaStack) (rest : List luaStack)
    (vals free : List luaValue)
    (hu : h.Undump chunk = .ok p ()) (hs : s.frames = st :: rest)
    (hsl : st.slots = vals ++ free) (htop : st.top = vals.length) :
    (match Load h chunk chunkName mode s with
      | .ok status s1 =>
        status = 0 ∧
        ∃ st1, s1.frames = st1 :: rest ∧
          st1.values = vals ++ [.closure { proto := some p, goFunc := none }] ∧
          st1.top = st.top + 1 ∧ st1.slots.length = st.slots.length
      | .panic _ s1 => free = [] ∧ s1 = s
      | .running => False) ∧
    ∀ chunkName1 mode1, Load h chunk chunkName1 mode1 s = Load h chunk chunkName mode s := by
  refine ⟨?_, fun _ _ => rfl⟩
  cases free with
  | nil =>
    have hfull : st.top = st.slots.length := by simp [hsl, htop]
    have hpush : st.push (luaValue.closure (newLuaClosure p)) = .panic "stack overflow!" st := by
      unfold luaStack.push
      rw [if_pos hfull]
    simp only [Load, hu, onStack, hs, hpush]
    refine ⟨trivial, ?_⟩
    cases s
    simp_all
  | cons x free =>
    simp only [Load, hu, onStack, hs,
      push_ok st vals free x (luaValue.closure (newLuaClosure p)) hsl htop]
    refine ⟨trivial, _, rfl, ?_, ?_, ?_⟩
    · simp [luaStack.values, newLuaClosure, List.take_append_eq_append_take]
    · simp [htop]
    · simp [hsl]

/-- Witness of C14: a frame of four slots holding one value. -/
theorem Load_pushes_root_closure_witness :
    demoHost.Undump [OpRETURN] = .ok ⟨"chunk", 0, 0, 0, 1, 2, [OpRETURN]⟩ () ∧
      (LuaState.mk [demoFrame 4 [.integer 9]]).frames = [demoFrame 4 [.integer 9]] ∧
      (demoFrame 4 [.integer 9]).slots = [.integer 9] ++ [.nil, .nil, .nil] ∧
      (demoFrame 4 [.integer 9]).top = [luaValue.integer 9].length ∧
      (match Load demoHost [OpRETURN] "main" "b" ⟨[demoFrame 4 [.integer 9]]⟩ with
        | .ok status s1 =>
          status = 0 ∧
          ∃ st1, s1.frames = st1 :: [] ∧
            st1.values = [.integer 9] ++
              [.closure { proto := some ⟨"chunk", 0, 0, 0, 1, 2, [OpRETURN]⟩, goFunc := none }] ∧
            st1.top = (demoFrame 4 [.integer 9]).top + 1 ∧
            st1.slots.length = (demoFrame 4 [.integer 9]).slots.length
        | .panic _ s1 =>
          ([.nil, .nil, .nil] : List luaValue) = [] ∧ s1 = ⟨[demoFrame 4 [.integer 9]]⟩
        | .running => False) ∧
      (∀ chunkName1 mode1,
        Load demoHost [OpRETURN] chunkName1 mode1 ⟨[demoFrame 4 [.integer 9]]⟩ =
          Load demoHost [OpRETURN] "main" "b" ⟨[demoFrame 4 [.integer 9]]⟩) ∧
      Load demoHost [OpRETURN] "main" "b" ⟨[demoFrame 4 [.integer 9]]⟩ =
        .ok 0 ⟨[demoFrame 4
          [.integer 9, .closure (newLuaClosure ⟨"chunk", 0, 0, 0, 1, 2, [OpRETURN]⟩)]]⟩ :=
  ⟨rfl, rfl, rfl, rfl,
    (Load_pushes_root_closure demoHost [OpRETURN] "main" "b"
      ⟨"chunk", 0, 0, 0, 1, 2, [OpRETURN]⟩ ⟨[demoFrame 4 [.integer 9]]⟩
      (demoFrame 4 [.integer 9]) [] [.integer 9] [.nil, .nil, .nil] rfl rfl rfl rfl).1,
    (Load_pushes_root_closure demoHost [OpRETURN] "main" "b"
      ⟨"chunk", 0, 0, 0, 1, 2, [OpRETURN]⟩ ⟨[demoFrame 4 [.integer 9]]⟩
      (demoFrame 4 [.integer 9]) [] [.integer 9] [.nil, .nil, .nil] rfl rfl rfl rfl).2,
    by decide⟩

/-- The copy of the results asks `check` for `requestedSlots` slots and then
pushes `pushedValues` values. -/
theorem pushResults_counts (results : List luaValue) (nResults : Int) (s : LuaState) :
    pushResults results nResults s =
      (match onStack (fun st => .ok () (st.check (requestedSlots results))) s with
        | .ok _ s1 =>
          onStack (fun st => st.pushNLoop results 0 (pushedValues results nResults)) s1
        | .panic m s1 => .panic m s1
        | .running => .running) := by
  simp only [pushResults, bind, requestedSlots, pushedValues, luaStack.pushN]
  cases onStack (fun st => Res.ok () (st.check results.length)) s <;> rfl

/-- C18, at the failing input: a closure called with three arguments returns
two values and six results are asked for, the caller having five free slots
once callable and arguments are removed. `check` is asked for
`len(results) = 2` slots, `pushN` pushes `nResults = 6` values, which is
more, and the sixth push overflows the caller's stack; with five results
asked for the same call returns. -/
theorem Call_pushes_more_than_requested :
    requestedSlots [.integer 1, .integer 2] = 2 ∧
    pushedValues [.integer 1, .integer 2] 6 = 6 ∧
    ¬ pushedValues [.integer 1, .integer 2] 6 ≤ requestedSlots [.integer 1, .integer 2] ∧
    (Call demoHost 5 3 6 (demoState (.closure demoLuaClosure))).panicMsg? =
      some "stack overflow!" ∧
    (Call demoHost 5 3 6 (demoState (.closure demoGoClosure))).panicMsg? =
      some "stack overflow!" ∧
    (Call demoHost 5 3 5 (demoState (.closure demoLuaClosure))).panicMsg? = none := by
  decide

theorem sameFrame_refl (a : luaStack) : a.sameFrame a := ⟨rfl, rfl, rfl⟩

theorem sameFrame_trans {a b c : luaStack} (hab : a.sameFrame b) (hbc : b.sameFrame c) :
    a.sameFrame c :=
  ⟨hab.1.trans hbc.1, hab.2.1.trans hbc.2.1, hab.2.2.trans hbc.2.2⟩

theorem push_sameFrame (st st1 : luaStack) (v : luaValue) (u : Unit)
    (h : st.push v = .ok u st1) : st1.sameFrame st := by
  unfold luaStack.push at h
  split at h
  · cases h
  · split at h
    · cases h
    · injection h with _ hst
      subst hst
      exact ⟨rfl, rfl, rfl⟩

theorem pop_sameFrame (st st1 : luaStack) (v : luaValue)
    (h : st.pop = .ok v st1) : st1.sameFrame st := by
  unfold luaStack.pop at h
  split at h
  · cases h
  · split at h
    · cases h
    · injection h with _ hst
      subst hst
      exact ⟨rfl, rfl, rfl⟩

theorem popNLoop_sameFrame :
    ∀ (k : Nat) (st st1 : luaStack) (acc vs : List luaValue),
      luaStack.popNLoop k st acc = .ok vs st1 → st1.sameFrame st := by
  intro k
  induction k with
  | zero =>
    intro st st1 acc vs h
    simp only [luaStack.popNLoop] at h
    injection h with _ hst
    subst hst
    exact sameFrame_refl _
  | succ k ih =>
    intro st st1 acc vs h
    unfold luaStack.popNLoop at h
    cases hp : st.pop with
    | ok v st2 =>
      rw [hp] at h
      exact sameFrame_trans (ih st2 st1 (v :: acc) vs h) (pop_sameFrame st st2 v hp)
    | panic m st2 => rw [hp] at h; cases h
    | running => rw [hp] at h; cases h

theorem popN_sameFrame (st st1 : luaStack) (n : Int) (vs : List luaValue)
    (h : st.popN n = .ok vs st1) : st1.sameFrame st := by
  unfold luaStack.popN at h
  split at h
  · cases h
  · exact popNLoop_sameFrame _ st st1 [] vs h

theorem pushNLoop_sameFrame (vals : List luaValue) :
    ∀ (k i : Nat) (st st1 : luaStack) (u : Unit),
      luaStack.pushNLoop vals i k st = .ok u st1 → st1.sameFrame st := by
  intro k
  induction k with
  | zero =>
    intro i st st1 u h
    simp only [luaStack.pushNLoop] at h
    injection h with _ hst
    subst hst
    exact sameFrame_refl _
  | succ k ih =>
    intro i st st1 u h
    unfold luaStack.pushNLoop at h
    cases hp : st.push (if i < vals.length then vals.getD i .nil else .nil) with
    | ok v st2 =>
      rw [hp] at h
      exact sameFrame_trans (ih (i + 1) st2 st1 u h) (push_sameFrame st st2 _ v hp)
    | panic m st2 => rw [hp] at h; cases h
    | running => rw [hp] at h; cases h

theorem onStack_sameFrame {α : Type} (f : luaStack → Res luaStack α)
    (hf : ∀ st a st1, f st = .ok a st1 → st1.sameFrame st)
    (s s1 : LuaState) (a : α) (st : luaStack) (rest : List luaStack)
    (hs : s.frames = st :: rest) (h : onStack f s = .ok a s1) :
    ∃ st1, s1.frames = st1 :: rest ∧ st1.sameFrame st := by
  unfold onStack at h
  rw [hs] at h
  simp only at h
  cases hfs : f st with
  | ok b st1 =>
    rw [hfs] at h
    injection h with _ hst
    subst hst
    exact ⟨st1, rfl, hf st b st1 hfs⟩
  | panic m st1 => rw [hfs] at h; cases h
  | running => rw [hfs] at h; cases h

theorem pushResults_sameFrame (rs : List luaValue) (n : Int) (s s1 : LuaState)
    (st : luaStack) (rest : List luaStack) (u : Unit)
    (hs : s.frames = st :: rest) (h : pushResults rs n s = .ok u s1) :
    ∃ st1, s1.frames = st1 :: rest ∧ st1.sameFrame st := by
  simp only [pushResults, bind] at h
  cases hc : onStack (fun st => Res.ok () (st.check rs.length)) s with
  | ok v s2 =>
    rw [hc] at h
    simp only at h
    obtain ⟨st2, hs2, hsame2⟩ := onStack_sameFrame _
      (fun st a st1 hh => by
        injection hh with _ hst
        subst hst
        exact ⟨rfl, rfl, rfl⟩) s s2 v st rest hs hc
    obtain ⟨st3, hs3, hsame3⟩ := onStack_sameFrame _
      (fun st a st1 hh => pushNLoop_sameFrame rs _ 0 st st1 a hh) s2 s1 u st2 rest hs2 h
    exact ⟨st3, hs3, sameFrame_trans hsame3 hsame2⟩
  | panic m s2 => rw [hc] at h; cases h
  | running => rw [hc] at h; cases h

theorem callLuaClosurePrepare_frames (h : Host) (nArgs : Int) (c : luaClosure)
    (s s1 : LuaState) (st : luaStack) (rest : List luaStack)
    (hs : s.frames = st :: rest) (hp : callLuaClosurePrepare h nArgs c s = .ok () s1) :
    ∃ f1 caller1, s1.frames = f1 :: caller1 :: rest ∧ caller1.sameFrame st := by
  unfold callLuaClosurePrepare at hp
  cases hc : c.proto with
  | none => rw [hc] at hp; cases hp
  | some p =>
    rw [hc] at hp
    simp only at hp
    cases hpop : onStack (fun st => st.popN (nArgs + 1)) s with
    | panic m s2 => rw [hpop] at hp; cases hp
    | running => rw [hpop] at hp; cases hp
    | ok funcAndArgs s2 =>
      rw [hpop] at hp
      simp only at hp
      obtain ⟨caller1, hs2, hsame⟩ := onStack_sameFrame _
        (fun st a st1 hh => popN_sameFrame st st1 _ a hh) s s2 funcAndArgs st rest hs hpop
      split at hp
      · cases hp
      · split at hp
        · cases hp
        · cases hp
        · simp only [pushLuaStack] at hp
          injection hp with _ hst
          subst hst
          exact ⟨_, caller1, by rw [hs2], hsame⟩

theorem callGoClosurePrepare_frames (h : Host) (nArgs : Int) (c : luaClosure)
    (s s1 : LuaState) (st : luaStack) (rest : List luaStack)
    (hs : s.frames = st :: rest) (hp : callGoClosurePrepare h nArgs c s = .ok () s1) :
    ∃ f1 caller1, s1.frames = f1 :: caller1 :: rest ∧ caller1.sameFrame st := by
  unfold callGoClosurePrepare at hp
  split at hp
  · cases hp
  · simp only at hp
    cases hpop : onStack (fun st => st.popN nArgs) s with
    | panic m s2 => rw [hpop] at hp; cases hp
    | running => rw [hpop] at hp; cases hp
    | ok args s2 =>
      rw [hpop] at hp
      simp only at hp
      obtain ⟨caller1, hs2, hsame⟩ := onStack_sameFrame _
        (fun st a st1 hh => popN_sameFrame st st1 _ a hh) s s2 args st rest hs hpop
      split at hp
      · cases hp
      · cases hp
      · cases hpop1 : onStack (fun st => st.pop) s2 with
        | panic m s3 => rw [hpop1] at hp; cases hp
        | running => rw [hpop1] at hp; cases hp
        | ok v s3 =>
          rw [hpop1] at hp
          simp only [pushLuaStack] at hp
          obtain ⟨caller2, hs3, hsame2⟩ := onStack_sameFrame _
            (fun st a st1 hh => pop_sameFrame st st1 a hh) s2 s3 v caller1 rest hs2 hpop1
          injection hp with _ hst
          subst hst
          exact ⟨_, caller2, by rw [hs3], sameFrame_trans hsame2 hsame⟩

/-- C15. Calls are frame-balanced: `Call` returns normally and the callee
(the execution loop on the interpreted path, the host callback on the native
path) has given control back in a state `s2` whose current frame `f2` is its
own, on top of a frame `c2` and as many frames `tl2` below it as the caller
had below its own, whatever the callee did to the contents of these frames.
Then the current frame after the call is the frame under the callee's, that
is the frame at the place of the one that was current before the call, with
the closure, varargs and program counter the callee left it with (those it
had before the call when the callee did not change them); the frames below
it are those the callee left, and the depth of the call stack is the one
before the call. -/
theorem Call_frame_balanced (h : Host) (fuel : Nat) (nArgs nResults : Int)
    (s s1 s2 s3 : LuaState) (st f2 c2 : luaStack) (rest tl2 : List luaStack) (c : luaClosure)
    (hs : s.frames = st :: rest) (hv : st.get (-(nArgs + 1)) = some (.closure c))
    (hcall : Call h fuel nArgs nResults s = .ok () s3) :
    (c.proto ≠ none → callLuaClosurePrepare h nArgs c s = .ok () s1 →
      (∃ tr, runLuaClosure h fuel s1 = .ok tr s2) →
      s2.frames = f2 :: c2 :: tl2 → tl2.length = rest.length →
      ∃ cur, s3.frames = cur :: tl2 ∧ cur.sameFrame c2 ∧ (c2.sameFrame st → cur.sameFrame st) ∧
        s3.frames.length = s.frames.length) ∧
    (c.proto = none → ∀ f r, c.goFunc = some f →
      callGoClosurePrepare h nArgs c s = .ok () s1 → h.goFunc f s1 = .ok r s2 →
      s2.frames = f2 :: c2 :: tl2 → tl2.length = rest.length →
      ∃ cur, s3.frames = cur :: tl2 ∧ cur.sameFrame c2 ∧ (c2.sameFrame st → cur.sameFrame st) ∧
        s3.frames.length = s.frames.length) := by
  have hlen : ∀ cur : luaStack, tl2.length = rest.length →
      (cur :: tl2).length = s.frames.length := by
    intro cur htl
    rw [hs, List.length_cons, List.length_cons, htl]
  constructor
  · intro hproto hprep hrun hbal htl
    obtain ⟨tr, hrun⟩ := hrun
    unfold Call at hcall
    rw [hs] at hcall
    simp only [hv, if_pos hproto] at hcall
    simp only [callLuaClosure, bind, hprep, hrun, popLuaStack, hbal] at hcall
    by_cases hn : nResults ≠ 0
    · rw [if_pos hn] at hcall
      generalize f2.popN _ = res at hcall
      cases res with
      | ok results f3 =>
        obtain ⟨cur, hs3, hsame3⟩ := pushResults_sameFrame results nResults
          ⟨c2 :: tl2⟩ s3 c2 tl2 () rfl hcall
        exact ⟨cur, hs3, hsame3, fun hc2 => sameFrame_trans hsame3 hc2,
          by rw [hs3]; exact hlen cur htl⟩
      | panic m f3 => cases hcall
      | running => cases hcall
    · rw [if_neg hn] at hcall
      injection hcall with _ hst
      subst hst
      exact ⟨c2, rfl, sameFrame_refl c2, fun hc2 => hc2, hlen c2 htl⟩
  · intro hproto f r hf hprep hrun hbal htl
    have hgo : c.goFunc ≠ none := by rw [hf]; exact Option.some_ne_none f
    unfold Call at hcall
    rw [hs] at hcall
    simp only [hv, if_neg (not_not.mpr hproto), if_pos hgo] at hcall
    simp only [callGoClosure, bind, hprep, hf, hrun, popLuaStack, hbal] at hcall
    by_cases hn : nResults ≠ 0
    · rw [if_pos hn] at hcall
      generalize f2.popN _ = res at hcall
      cases res with
      | ok results f3 =>
        obtain ⟨cur, hs3, hsame3⟩ := pushResults_sameFrame results nResults
          ⟨c2 :: tl2⟩ s3 c2 tl2 () rfl hcall
        exact ⟨cur, hs3, hsame3, fun hc2 => sameFrame_trans hsame3 hc2,
          by rw [hs3]; exact hlen cur htl⟩
      | panic m f3 => cases hcall
      | running => cases hcall
    · rw [if_neg hn] at hcall
      injection hcall with _ hst
      subst hst
      exact ⟨c2, rfl, sameFrame_refl c2, fun hc2 => hc2, hlen c2 htl⟩

/-- Witness of C15: on the interpreted path a closure that returns one value,
one result asked for; on the native path a callback that writes a slot of its
caller's frame and returns nothing, no result asked for. -/
theorem Call_frame_balanced_witness :
    (demoCall demoReturnOne).frames = [demoFrame 4 [.closure demoReturnOne]] ∧
      (demoFrame 4 [.closure demoReturnOne]).get (-((0 : Int) + 1)) =
        some (.closure demoReturnOne) ∧
      Call demoHost 5 0 1 (demoCall demoReturnOne) = .ok () ⟨[demoFrame 4 [.integer 1]]⟩ ∧
      demoReturnOne.proto ≠ none ∧
      callLuaClosurePrepare demoHost 0 demoReturnOne (demoCall demoReturnOne) =
        .ok () (demoCallee demoReturnOne 21 1) ∧
      (∃ tr, runLuaClosure demoHost 5 (demoCallee demoReturnOne 21 1) =
        .ok tr demoCalleeReturned) ∧
      demoCalleeReturned.frames = demoReturnedFrame :: demoFrame 4 [] :: [] ∧
      ([] : List luaStack).length = ([] : List luaStack).length ∧
      (∃ cur, (LuaState.mk [demoFrame 4 [.integer 1]]).frames = cur :: [] ∧
        cur.sameFrame (demoFrame 4 []) ∧
        ((demoFrame 4 []).sameFrame (demoFrame 4 [.closure demoReturnOne]) →
          cur.sameFrame (demoFrame 4 [.closure demoReturnOne])) ∧
        (LuaState.mk [demoFrame 4 [.integer 1]]).frames.length =
          (demoCall demoReturnOne).frames.length) ∧
      (demoCall demoNoResultGo).frames = [demoFrame 4 [.closure demoNoResultGo]] ∧
      (demoFrame 4 [.closure demoNoResultGo]).get (-((0 : Int) + 1)) =
        some (.closure demoNoResultGo) ∧
      Call demoWritingHost 5 0 0 (demoCall demoNoResultGo) = .ok () ⟨[demoWrittenFrame]⟩ ∧
      demoNoResultGo.proto = none ∧ demoNoResultGo.goFunc = some 0 ∧
      callGoClosurePrepare demoWritingHost 0 demoNoResultGo (demoCall demoNoResultGo) =
        .ok () (demoCallee demoNoResultGo 30 0) ∧
      demoWritingHost.goFunc 0 (demoCallee demoNoResultGo 30 0) =
        .ok 0 ⟨[{ luaStack.new 30 with closure := some demoNoResultGo }, demoWrittenFrame]⟩ ∧
      (LuaState.mk [{ luaStack.new 30 with closure := some demoNoResultGo },
          demoWrittenFrame]).frames =
        { luaStack.new 30 with closure := some demoNoResultGo } :: demoWrittenFrame :: [] ∧
      (LuaState.mk [{ luaStack.new 30 with closure := some demoNoResultGo },
          demoWrittenFrame]).frames.tail ≠ (demoCallee demoNoResultGo 30 0).frames.tail ∧
      (∃ cur, (LuaState.mk [demoWrittenFrame]).frames = cur :: [] ∧
        cur.sameFrame demoWrittenFrame ∧
        (demoWrittenFrame.sameFrame (demoFrame 4 [.closure demoNoResultGo]) →
          cur.sameFrame (demoFrame 4 [.closure demoNoResultGo])) ∧
        (LuaState.mk [demoWrittenFrame]).frames.length =
          (demoCall demoNoResultGo).frames.length) :=
  ⟨rfl, by decide, by decide, by decide, by decide, ⟨[demoReturn 1], by decide⟩, rfl, rfl,
    (Call_frame_balanced demoHost 5 0 1 (demoCall demoReturnOne)
      (demoCallee demoReturnOne 21 1) demoCalleeReturned ⟨[demoFrame 4 [.integer 1]]⟩
      (demoFrame 4 [.closure demoReturnOne]) demoReturnedFrame (demoFrame 4 []) [] []
      demoReturnOne rfl (by decide) (by decide)).1 (by decide) (by decide)
      ⟨[demoReturn 1], by decide⟩ rfl rfl,
    rfl, by decide, by decide, rfl, rfl, by decide, by decide, rfl, by decide,
    (Call_frame_balanced demoWritingHost 5 0 0 (demoCall demoNoResultGo)
      (demoCallee demoNoResultGo 30 0)
      ⟨[{ luaStack.new 30 with closure := some demoNoResultGo }, demoWrittenFrame]⟩
      ⟨[demoWrittenFrame]⟩
      (demoFrame 4 [.closure demoNoResultGo])
      { luaStack.new 30 with closure := some demoNoResultGo } demoWrittenFrame [] []
      demoNoResultGo rfl (by decide) (by decide)).2 rfl 0 0 rfl (by decide) (by decide)
      rfl rfl⟩

end state

end LuaGo
